import Mathlib

/-!
Verification of the rule-based action-item extraction and task-merge core of
the todo-app server (`src/server.py`), shallowly embedded in Lean 4.

Strings are modelled as `List Char` (`Str`) so that every operation is a
structurally recursive, kernel-executable function.  Python `datetime.date`
values are modelled by the `Date` structure (year/month/day with the Gregorian
validity predicate); `datetime`'s total order on dates is lexicographic on
(year, month, day) and its ISO rendering is zero-padded decimal.
-/

namespace TodoApp

/-- Strings as explicit character lists, for kernel-executable definitions. -/
abbrev Str := List Char

/-- Convert a Lean string literal to the `Str` model. -/
def str (s : String) : Str := s.data

/-- Characters Python's `str.strip()` / `\s` treat as whitespace (ASCII range). -/
def pyIsSpace (c : Char) : Bool :=
  c = ' ' || c = '\t' || c = '\n' || c = '\r' || c = '\x0b' || c = '\x0c'

/-- Word characters for the `\w` class and `\b` boundaries: alphanumerics and `_`.
(ASCII range; the repository's patterns only rely on ASCII word characters.) -/
def isWordChar (c : Char) : Bool :=
  ('a' ≤ c && c ≤ 'z') || ('A' ≤ c && c ≤ 'Z') || ('0' ≤ c && c ≤ '9') || c = '_'

/-- Python `str.lower()` (ASCII case folding, which covers the repo's data). -/
def toLowerStr (s : Str) : Str := s.map Char.toLower

/-- Python `str.strip()`: drop leading and trailing whitespace. -/
def pyStrip (s : Str) : Str :=
  ((s.dropWhile pyIsSpace).reverse.dropWhile pyIsSpace).reverse

/-- Python string `<`: lexicographic comparison by code point, a proper prefix
is smaller. -/
def strLtB : Str → Str → Bool
  | _, [] => false
  | [], _ :: _ => true
  | a :: as, b :: bs =>
    if a < b then true
    else if a = b then strLtB as bs
    else false

/-- Python `s.split()` (no argument): split on whitespace runs, dropping empties. -/
def pySplitWs (s : Str) : List Str :=
  (s.splitOnP (pyIsSpace ·)).filter (· ≠ [])

/-- `len(line.split())`, the word count used by several extractor checks. -/
def wordCount (s : Str) : Nat := (pySplitWs s).length

-- ── Dates ─────────────────────────────────────────────────────────────────────

/-- A Gregorian calendar date, the model of Python `datetime.date`. -/
structure Date where
  year : Nat
  month : Nat
  day : Nat
deriving DecidableEq, Repr

/-- Gregorian leap-year rule (as used by `datetime`). -/
def isLeapYear (y : Nat) : Bool :=
  (y % 4 == 0 && y % 100 != 0) || y % 400 == 0

/-- Number of days in a month of a given year. -/
def daysInMonth (y m : Nat) : Nat :=
  if m = 2 then (if isLeapYear y then 29 else 28)
  else if m = 4 ∨ m = 6 ∨ m = 9 ∨ m = 11 then 30
  else 31

/-- The dates representable by `datetime.date` (year 1–9999, valid month/day). -/
def Date.Valid (d : Date) : Prop :=
  1 ≤ d.year ∧ d.year ≤ 9999 ∧ 1 ≤ d.month ∧ d.month ≤ 12 ∧
    1 ≤ d.day ∧ d.day ≤ daysInMonth d.year d.month

instance : DecidablePred Date.Valid := fun d => by
  unfold Date.Valid; exact inferInstance

/-- `datetime.date(y, m, d)`: `some` date, or `none` where Python raises
`ValueError` (callers in `_parse_date` catch that and fall through). -/
def mkDate? (y m d : Nat) : Option Date :=
  if (Date.mk y m d).Valid then some ⟨y, m, d⟩ else none

/-- `datetime.date` comparison: lexicographic on (year, month, day). -/
def Date.ltB (a b : Date) : Bool :=
  decide (a.year < b.year) ||
    (a.year == b.year &&
      (decide (a.month < b.month) ||
        (a.month == b.month && decide (a.day < b.day))))

/-- Decimal digit character of `n % 10`. -/
def digitChar (n : Nat) : Char := Char.ofNat (48 + n % 10)

/-- Two-digit zero padding (`%02d` for values below 100). -/
def pad2 (n : Nat) : Str := [digitChar (n / 10), digitChar n]

/-- Four-digit zero padding (`%04d` for values below 10000). -/
def pad4 (n : Nat) : Str :=
  [digitChar (n / 1000), digitChar (n / 100), digitChar (n / 10), digitChar n]

/-- `date.isoformat()`: `YYYY-MM-DD`. -/
def Date.toIso (d : Date) : Str :=
  pad4 d.year ++ '-' :: (pad2 d.month ++ '-' :: pad2 d.day)

-- ── Task storage (`tasks.json` schema) ───────────────────────────────────────

/-- A stored task (src/server.py lines 448–458). -/
structure Task where
  id : Str
  text : Str
  priority : Str
  due : Option Str
  done : Bool
  created : Int
  auto : Bool
  source : Str
  sourceDetail : Str
deriving DecidableEq, Repr

/-- The task store: the two insertion-ordered buckets of `tasks.json`. -/
structure Store where
  today : List Task
  longterm : List Task
deriving DecidableEq, Repr

/-- An extractor candidate `{text, due_date, priority}` as passed to
`add_auto_task`. -/
structure Candidate where
  text : Str
  due_date : Option Str
  priority : Str
deriving DecidableEq, Repr

/-- The lowercased texts of all tasks in both buckets (the dedup set built at
src/server.py line 443). -/
def allTaskTexts (s : Store) : List Str :=
  (s.today ++ s.longterm).map (fun t => toLowerStr t.text)

/-- `item.get('due_date') or None`: Python collapses a falsy due date
(absent or the empty string) to `None`. -/
def normDue : Option Str → Option Str
  | none => none
  | some s => if s = [] then none else some s

/-- `due_date and due_date > today_str`: the bucket test of src/server.py
line 439 — a truthy due date that compares (as a string) above today's ISO
date. -/
def dueAfterToday (due : Option Str) (todayStr : Str) : Bool :=
  match due with
  | some d => strLtB todayStr d
  | none => false

/-- `add_auto_task(item, source, source_detail)` (src/server.py lines 429–461)
as a pure function of the loaded store.  `todayStr` is
`datetime.date.today().isoformat()`; the fresh `uid()` and the creation
timestamp are passed in as `newId`/`now`.  Result `none` means the function
returned without calling `save_tasks` (empty text or duplicate). -/
def add_auto_task (item : Candidate) (source sourceDetail : Str) (todayStr : Str)
    (newId : Str) (now : Int) (store : Store) : Option Store :=
  let text := pyStrip item.text
  if text = [] then none
  else
    let due : Option Str := normDue item.due_date
    let priority :=
      if item.priority = str "high" ∨ item.priority = str "medium" ∨
          item.priority = str "low" then item.priority else str "medium"
    -- `col = 'longterm' if (due_date and due_date > today_str) else 'today'`
    let colLongterm : Bool := dueAfterToday due todayStr
    if toLowerStr text ∈ allTaskTexts store then none
    else
      let task : Task :=
        { id := newId, text := text, priority := priority, due := due,
          done := false, created := now, auto := true,
          source := source, sourceDetail := sourceDetail }
      if colLongterm then some { store with longterm := store.longterm ++ [task] }
      else some { store with today := store.today ++ [task] }

/-- The effect of one `add_auto_task` call on the persisted store: either the
saved store, or the unchanged store when the call did not write. -/
def run_add_auto_task (item : Candidate) (source sourceDetail : Str)
    (todayStr : Str) (newId : Str) (now : Int) (store : Store) : Store :=
  (add_auto_task item source sourceDetail todayStr newId now store).getD store

/-- Number of stored tasks whose text matches `key` case-insensitively. -/
def countTaskText (key : Str) (s : Store) : Nat :=
  ((s.today ++ s.longterm).filter (fun t => toLowerStr t.text = key)).length

end TodoApp

namespace TodoApp

-- ── Digit / padding comparison lemmas ─────────────────────────────────────────

theorem digitChar_lt_iff (a b : Nat) : digitChar a < digitChar b ↔ a % 10 < b % 10 := by
  have key : ∀ x, x < 10 → ∀ y, y < 10 →
      (Char.ofNat (48 + x) < Char.ofNat (48 + y) ↔ x < y) := by decide
  exact key _ (Nat.mod_lt _ (by norm_num)) _ (Nat.mod_lt _ (by norm_num))

theorem digitChar_eq_iff (a b : Nat) : digitChar a = digitChar b ↔ a % 10 = b % 10 := by
  have key : ∀ x, x < 10 → ∀ y, y < 10 →
      (Char.ofNat (48 + x) = Char.ofNat (48 + y) ↔ x = y) := by decide
  exact key _ (Nat.mod_lt _ (by norm_num)) _ (Nat.mod_lt _ (by norm_num))

theorem strLtB_append {u v : Str} (s t : Str) (h : u.length = v.length) :
    strLtB (u ++ s) (v ++ t) = (strLtB u v || (decide (u = v) && strLtB s t)) := by
  induction u generalizing v with
  | nil =>
    cases v with
    | nil => simp [strLtB]
    | cons b bs => simp at h
  | cons a as ih =>
    cases v with
    | nil => simp at h
    | cons b bs =>
      have h' : as.length = bs.length := by simpa using h
      by_cases hab : a < b
      · simp [strLtB, List.cons_append, hab]
      · by_cases heq : a = b
        · subst heq
          simp [strLtB, List.cons_append, hab, List.cons.injEq, ih h']
        · simp [strLtB, List.cons_append, hab, heq, List.cons.injEq]

theorem strLtB_cons_same (c : Char) (u v : Str) :
    strLtB (c :: u) (c :: v) = strLtB u v := by
  simp [strLtB]

theorem pad4_lt_iff {x y : Nat} (hx : x ≤ 9999) (hy : y ≤ 9999) :
    strLtB (pad4 x) (pad4 y) = true ↔ x < y := by
  simp only [pad4, strLtB, if_pos, if_neg, digitChar_lt_iff, digitChar_eq_iff]
  split_ifs <;> simp_all <;> omega

theorem pad4_eq_iff {x y : Nat} (hx : x ≤ 9999) (hy : y ≤ 9999) :
    pad4 x = pad4 y ↔ x = y := by
  simp only [pad4, List.cons.injEq, and_true, digitChar_eq_iff]
  omega

theorem pad2_lt_iff {x y : Nat} (hx : x ≤ 99) (hy : y ≤ 99) :
    strLtB (pad2 x) (pad2 y) = true ↔ x < y := by
  simp only [pad2, strLtB, digitChar_lt_iff, digitChar_eq_iff]
  split_ifs <;> simp_all <;> omega

theorem pad2_eq_iff {x y : Nat} (hx : x ≤ 99) (hy : y ≤ 99) :
    pad2 x = pad2 y ↔ x = y := by
  simp only [pad2, List.cons.injEq, and_true, digitChar_eq_iff]
  omega

theorem daysInMonth_le (y m : Nat) : daysInMonth y m ≤ 31 := by
  unfold daysInMonth
  split_ifs <;> norm_num

/-- ISO-rendered dates compare (as Python strings) exactly as the underlying
dates compare (as `datetime.date` values). -/
theorem toIso_lt_iff {a b : Date} (ha : a.Valid) (hb : b.Valid) :
    strLtB a.toIso b.toIso = true ↔ Date.ltB a b = true := by
  obtain ⟨ha1, ha2, ha3, ha4, ha5, ha6⟩ := ha
  obtain ⟨hb1, hb2, hb3, hb4, hb5, hb6⟩ := hb
  have hda : a.day ≤ 31 := le_trans ha6 (daysInMonth_le _ _)
  have hdb : b.day ≤ 31 := le_trans hb6 (daysInMonth_le _ _)
  unfold Date.toIso
  rw [strLtB_append _ _ (by simp [pad4]), strLtB_cons_same,
    strLtB_append _ _ (by simp [pad2]), strLtB_cons_same]
  simp only [Bool.or_eq_true, Bool.and_eq_true, decide_eq_true_eq,
    pad4_lt_iff ha2 hb2, pad4_eq_iff ha2 hb2,
    pad2_lt_iff (le_trans ha4 (by norm_num)) (le_trans hb4 (by norm_num)),
    pad2_eq_iff (le_trans ha4 (by norm_num)) (le_trans hb4 (by norm_num)),
    pad2_lt_iff (le_trans hda (by norm_num)) (le_trans hdb (by norm_num)),
    Date.ltB, beq_iff_eq]

end TodoApp

namespace TodoApp

-- ── Supporting lemmas about the merger ───────────────────────────────────────

theorem toLowerStr_eq_nil {s : Str} : toLowerStr s = [] ↔ s = [] := by
  simp [toLowerStr]

theorem toIso_ne_nil (d : Date) : d.toIso ≠ [] := by
  simp [Date.toIso, pad4]

theorem toIso_inj {a b : Date} (ha : a.Valid) (hb : b.Valid)
    (h : a.toIso = b.toIso) : a = b := by
  obtain ⟨ha1, ha2, ha3, ha4, ha5, ha6⟩ := ha
  obtain ⟨hb1, hb2, hb3, hb4, hb5, hb6⟩ := hb
  have hda : a.day ≤ 31 := le_trans ha6 (daysInMonth_le _ _)
  have hdb : b.day ≤ 31 := le_trans hb6 (daysInMonth_le _ _)
  simp only [Date.toIso, pad4, pad2, List.cons_append, List.nil_append,
    List.cons.injEq, and_true, digitChar_eq_iff] at h
  have hy : a.year = b.year := by omega
  have hm : a.month = b.month := by omega
  have hd : a.day = b.day := by omega
  cases a; cases b; simp_all

theorem mem_allTaskTexts_iff (key : Str) (s : Store) :
    key ∈ allTaskTexts s ↔ countTaskText key s ≠ 0 := by
  unfold allTaskTexts countTaskText
  rw [Ne, List.length_eq_zero, List.filter_eq_nil_iff]
  push_neg
  simp only [List.mem_map, decide_eq_true_eq]

theorem countTaskText_append_today (key : Str) (s : Store) (t : Task) :
    countTaskText key { s with today := s.today ++ [t] } =
      countTaskText key s + (if toLowerStr t.text = key then 1 else 0) := by
  simp only [countTaskText, List.append_assoc, List.singleton_append,
    List.filter_append, List.filter_cons, List.length_append]
  split_ifs with h <;> simp_all [List.filter_append, List.length_append] <;> omega

theorem countTaskText_append_longterm (key : Str) (s : Store) (t : Task) :
    countTaskText key { s with longterm := s.longterm ++ [t] } =
      countTaskText key s + (if toLowerStr t.text = key then 1 else 0) := by
  simp only [countTaskText, List.filter_append, List.filter_cons,
    List.filter_nil, List.length_append]
  split_ifs with h <;> simp_all <;> omega

theorem add_auto_task_none_of_dup (item : Candidate)
    (source sourceDetail todayStr newId : Str) (now : Int) (store : Store)
    (hdup : toLowerStr (pyStrip item.text) ∈ allTaskTexts store) :
    add_auto_task item source sourceDetail todayStr newId now store = none := by
  unfold add_auto_task
  by_cases h1 : pyStrip item.text = [] <;> simp [h1, hdup]

theorem add_auto_task_insert_of_not_dup (item : Candidate)
    (source sourceDetail todayStr newId : Str) (now : Int) (store : Store)
    (hne : pyStrip item.text ≠ [])
    (hnodup : toLowerStr (pyStrip item.text) ∉ allTaskTexts store) :
    ∃ t : Task, t.text = pyStrip item.text ∧
      (add_auto_task item source sourceDetail todayStr newId now store =
          some { store with today := store.today ++ [t] } ∨
        add_auto_task item source sourceDetail todayStr newId now store =
          some { store with longterm := store.longterm ++ [t] }) := by
  unfold add_auto_task
  simp only [if_neg hne, if_neg hnodup]
  split
  · exact ⟨_, rfl, Or.inr rfl⟩
  · exact ⟨_, rfl, Or.inl rfl⟩

end TodoApp

namespace TodoApp

-- ── Claim C10: frame property of `add_auto_task` ─────────────────────────────

/-- C10: `add_auto_task` changes the Task Store at most by appending a single
new task to the end of one bucket — every pre-existing task in both buckets is
preserved verbatim and in order, the other bucket is identical — and it writes
nothing at all (result `none`) exactly when the call no-ops, i.e. when the
stripped text is empty or case-insensitively duplicates an existing task text. -/
theorem add_auto_task_frame
    (item : Candidate) (source sourceDetail todayStr newId : Str) (now : Int)
    (store : Store) :
    (add_auto_task item source sourceDetail todayStr newId now store = none ↔
      (pyStrip item.text = [] ∨ toLowerStr (pyStrip item.text) ∈ allTaskTexts store)) ∧
    (∀ s', add_auto_task item source sourceDetail todayStr newId now store = some s' →
      (∃ t, s'.today = store.today ++ [t] ∧ s'.longterm = store.longterm) ∨
      (∃ t, s'.today = store.today ∧ s'.longterm = store.longterm ++ [t])) := by
  by_cases h1 : pyStrip item.text = []
  · constructor
    · simp [add_auto_task, h1]
    · intro s' h
      simp [add_auto_task, h1] at h
  · by_cases h2 : toLowerStr (pyStrip item.text) ∈ allTaskTexts store
    · constructor
      · simp [add_auto_task, h1, h2]
      · intro s' h
        simp [add_auto_task, h1, h2] at h
    · constructor
      · unfold add_auto_task
        simp only [if_neg h1, if_neg h2]
        split <;> simp [h1, h2]
      · intro s' h
        unfold add_auto_task at h
        simp only [if_neg h1, if_neg h2] at h
        split at h <;> cases h
        · exact Or.inr ⟨_, rfl, rfl⟩
        · exact Or.inl ⟨_, rfl, rfl⟩

/-- Witness for C10 at a concrete no-due-date candidate and empty store. -/
theorem add_auto_task_frame_witness :
    (∃ t, (Store.mk [Task.mk (str "i1") (str "Send the weekly update")
              (str "medium") none false 0 true (str "slack") (str "#general")]
              [] : Store).today = (Store.mk [] [] : Store).today ++ [t] ∧
          (Store.mk [Task.mk (str "i1") (str "Send the weekly update")
              (str "medium") none false 0 true (str "slack") (str "#general")]
              [] : Store).longterm = (Store.mk [] [] : Store).longterm) ∨
    (∃ t, (Store.mk [Task.mk (str "i1") (str "Send the weekly update")
              (str "medium") none false 0 true (str "slack") (str "#general")]
              [] : Store).today = (Store.mk [] [] : Store).today ∧
          (Store.mk [Task.mk (str "i1") (str "Send the weekly update")
              (str "medium") none false 0 true (str "slack") (str "#general")]
              [] : Store).longterm = (Store.mk [] [] : Store).longterm ++ [t]) :=
  (add_auto_task_frame
      ⟨str "Send the weekly update", none, str "odd"⟩ (str "slack") (str "#general")
      (str "2025-01-01") (str "i1") 0 (Store.mk [] [])).2
      (Store.mk [Task.mk (str "i1") (str "Send the weekly update") (str "medium")
        none false 0 true (str "slack") (str "#general")] []) (by decide)

end TodoApp

namespace TodoApp

-- ── Claim C1: bucket placement ───────────────────────────────────────────────

/-- C1: whenever `add_auto_task` inserts a task, the task goes to the
"longterm" bucket iff the candidate's due date is present and strictly after
the current date, and to the "today" bucket otherwise (no due date, due today,
or overdue).  The due-date comparison the code performs on ISO strings agrees
with the calendar order of the underlying dates. -/
theorem add_auto_task_bucket_placement
    (item : Candidate) (source sourceDetail newId : Str) (now : Int)
    (store : Store) (todayD : Date) (hT : todayD.Valid)
    (hdue : item.due_date = none ∨ ∃ d : Date, d.Valid ∧ item.due_date = some d.toIso)
    (s' : Store)
    (h : add_auto_task item source sourceDetail todayD.toIso newId now store = some s') :
    ((∃ d : Date, d.Valid ∧ item.due_date = some d.toIso ∧ Date.ltB todayD d = true) →
      (∃ t, s'.longterm = store.longterm ++ [t]) ∧ s'.today = store.today) ∧
    ((¬ ∃ d : Date, d.Valid ∧ item.due_date = some d.toIso ∧ Date.ltB todayD d = true) →
      (∃ t, s'.today = store.today ++ [t]) ∧ s'.longterm = store.longterm) := by
  by_cases h1 : pyStrip item.text = []
  · simp [add_auto_task, h1] at h
  · by_cases h2 : toLowerStr (pyStrip item.text) ∈ allTaskTexts store
    · simp [add_auto_task, h1, h2] at h
    · unfold add_auto_task at h
      simp only [if_neg h1, if_neg h2] at h
      rcases hdue with hnone | ⟨d, hd, hsome⟩
      · rw [hnone] at h
        simp only [normDue, dueAfterToday, Bool.false_eq_true, if_false] at h
        constructor
        · rintro ⟨d, -, hc, -⟩
          rw [hnone] at hc
          cases hc
        · intro _
          cases h
          exact ⟨⟨_, rfl⟩, rfl⟩
      · rw [hsome] at h
        have hnorm : normDue (some d.toIso) = some d.toIso := by
          simp [normDue, toIso_ne_nil d]
        rw [hnorm] at h
        have hcol : dueAfterToday (some d.toIso) todayD.toIso =
            strLtB todayD.toIso d.toIso := rfl
        rw [hcol] at h
        by_cases hlt : Date.ltB todayD d = true
        · rw [(toIso_lt_iff hT hd).mpr hlt] at h
          simp only [if_true] at h
          constructor
          · intro _
            cases h
            exact ⟨⟨_, rfl⟩, rfl⟩
          · intro hcontra
            exact absurd ⟨d, hd, hsome, hlt⟩ hcontra
        · have hfalse : strLtB todayD.toIso d.toIso = false := by
            rcases Bool.eq_false_or_eq_true (strLtB todayD.toIso d.toIso) with ht | hf
            · exact absurd ((toIso_lt_iff hT hd).mp ht) hlt
            · exact hf
          rw [hfalse] at h
          simp only [Bool.false_eq_true, if_false] at h
          constructor
          · rintro ⟨d', hd', hsome', hlt'⟩
            rw [hsome] at hsome'
            have : d = d' := toIso_inj hd hd' (Option.some.inj hsome')
            subst this
            exact absurd hlt' hlt
          · intro _
            cases h
            exact ⟨⟨_, rfl⟩, rfl⟩

/-- Witness for C1: a task due 2025-07-04 added on 2025-07-01 lands in
"longterm". -/
theorem add_auto_task_bucket_placement_witness :
    (Date.mk 2025 7 1).Valid ∧
    ((∃ t, (Store.mk [] [Task.mk (str "i1") (str "Ship the Q3 report")
              (str "high") (some (Date.toIso ⟨2025, 7, 4⟩)) false 0 true
              (str "gong") (str "Call")] : Store).longterm =
            (Store.mk [] [] : Store).longterm ++ [t]) ∧
      (Store.mk [] [Task.mk (str "i1") (str "Ship the Q3 report")
          (str "high") (some (Date.toIso ⟨2025, 7, 4⟩)) false 0 true
          (str "gong") (str "Call")] : Store).today = (Store.mk [] [] : Store).today) :=
  ⟨by decide,
    (add_auto_task_bucket_placement
      ⟨str "Ship the Q3 report", some (Date.toIso ⟨2025, 7, 4⟩), str "high"⟩
      (str "gong") (str "Call") (str "i1") 0 (Store.mk [] []) ⟨2025, 7, 1⟩
      (by decide)
      (Or.inr ⟨⟨2025, 7, 4⟩, by decide, rfl⟩)
      (Store.mk [] [Task.mk (str "i1") (str "Ship the Q3 report")
        (str "high") (some (Date.toIso ⟨2025, 7, 4⟩)) false 0 true
        (str "gong") (str "Call")])
      (by decide)).1
      ⟨⟨2025, 7, 4⟩, by decide, rfl, by decide⟩⟩

end TodoApp

namespace TodoApp

-- ── Claim C4: dedup / idempotence on task text ───────────────────────────────

/-- A store that already holds two tasks with the same text — permitted by the
schema (the store file is also written directly by the UI through
`POST /api/tasks`), and the state that refutes C4 as universally stated. -/
def dupStore : Store :=
  ⟨[Task.mk (str "t1") (str "Reply to Mike about X") (str "medium") none false 0
      false (str "email") (str ""),
    Task.mk (str "t2") (str "Reply to Mike about X") (str "medium") none false 0
      false (str "email") (str "")], []⟩

/-- C4 counterexample: starting from a store that already holds two tasks with
the candidate's text, calling `add_auto_task` twice with that text leaves two
stored tasks with that text, not exactly one (both calls are duplicate-skips
and insert nothing). -/
theorem add_auto_task_idempotent_counterexample :
    countTaskText (str "reply to mike about x")
        (run_add_auto_task ⟨str "Reply to Mike about X", none, str "medium"⟩
          (str "email") (str "s") (str "2025-01-01") (str "i2") 0
          (run_add_auto_task ⟨str "Reply to Mike about X", none, str "medium"⟩
            (str "email") (str "s") (str "2025-01-01") (str "i1") 0 dupStore)) ≠ 1 ∧
    countTaskText (str "reply to mike about x")
        (run_add_auto_task ⟨str "Reply to Mike about X", none, str "medium"⟩
          (str "email") (str "s") (str "2025-01-01") (str "i2") 0
          (run_add_auto_task ⟨str "Reply to Mike about X", none, str "medium"⟩
            (str "email") (str "s") (str "2025-01-01") (str "i1") 0 dupStore)) = 2 := by
  decide

/-- C4 amended: two `add_auto_task` calls whose texts agree up to letter case
insert at most one task.  If no task with that text existed, exactly one exists
afterwards; in general the count of tasks with that text is unchanged beyond
the first call, and the second call is always skipped by the case-insensitive
exact-match dedup (it does not write the store). -/
theorem add_auto_task_dedup_idempotent
    (item1 item2 : Candidate) (src1 det1 src2 det2 todayStr id1 id2 : Str)
    (now1 now2 : Int) (store : Store)
    (hsame : toLowerStr (pyStrip item2.text) = toLowerStr (pyStrip item1.text))
    (hne : pyStrip item1.text ≠ []) :
    add_auto_task item2 src2 det2 todayStr id2 now2
        (run_add_auto_task item1 src1 det1 todayStr id1 now1 store) = none ∧
    countTaskText (toLowerStr (pyStrip item1.text))
        (run_add_auto_task item2 src2 det2 todayStr id2 now2
          (run_add_auto_task item1 src1 det1 todayStr id1 now1 store)) =
      (if countTaskText (toLowerStr (pyStrip item1.text)) store = 0 then 1
        else countTaskText (toLowerStr (pyStrip item1.text)) store) := by
  by_cases h0 : countTaskText (toLowerStr (pyStrip item1.text)) store = 0
  · have hnodup : toLowerStr (pyStrip item1.text) ∉ allTaskTexts store := by
      rw [mem_allTaskTexts_iff]
      simpa using h0
    obtain ⟨t, htext, hcase⟩ :=
      add_auto_task_insert_of_not_dup item1 src1 det1 todayStr id1 now1 store hne hnodup
    have hkey_t : toLowerStr t.text = toLowerStr (pyStrip item1.text) := by rw [htext]
    rcases hcase with hA | hA
    · have hs1 : run_add_auto_task item1 src1 det1 todayStr id1 now1 store =
          { store with today := store.today ++ [t] } := by
        rw [run_add_auto_task, hA]
        rfl
      rw [hs1]
      have hcount1 : countTaskText (toLowerStr (pyStrip item1.text))
          { store with today := store.today ++ [t] } = 1 := by
        rw [countTaskText_append_today, h0, if_pos hkey_t]
      have hdup1 : toLowerStr (pyStrip item2.text) ∈
          allTaskTexts { store with today := store.today ++ [t] } := by
        rw [hsame, mem_allTaskTexts_iff, hcount1]
        norm_num
      have hnone2 := add_auto_task_none_of_dup item2 src2 det2 todayStr id2 now2 _ hdup1
      refine ⟨hnone2, ?_⟩
      rw [run_add_auto_task, hnone2]
      simpa [hcount1] using (if_pos h0).symm
    · have hs1 : run_add_auto_task item1 src1 det1 todayStr id1 now1 store =
          { store with longterm := store.longterm ++ [t] } := by
        rw [run_add_auto_task, hA]
        rfl
      rw [hs1]
      have hcount1 : countTaskText (toLowerStr (pyStrip item1.text))
          { store with longterm := store.longterm ++ [t] } = 1 := by
        rw [countTaskText_append_longterm, h0, if_pos hkey_t]
      have hdup1 : toLowerStr (pyStrip item2.text) ∈
          allTaskTexts { store with longterm := store.longterm ++ [t] } := by
        rw [hsame, mem_allTaskTexts_iff, hcount1]
        norm_num
      have hnone2 := add_auto_task_none_of_dup item2 src2 det2 todayStr id2 now2 _ hdup1
      refine ⟨hnone2, ?_⟩
      rw [run_add_auto_task, hnone2]
      simpa [hcount1] using (if_pos h0).symm
  · have hdup : toLowerStr (pyStrip item1.text) ∈ allTaskTexts store := by
      rw [mem_allTaskTexts_iff]
      exact h0
    have hnone1 := add_auto_task_none_of_dup item1 src1 det1 todayStr id1 now1 store hdup
    have hs1 : run_add_auto_task item1 src1 det1 todayStr id1 now1 store = store := by
      rw [run_add_auto_task, hnone1]
      rfl
    rw [hs1]
    have hnone2 := add_auto_task_none_of_dup item2 src2 det2 todayStr id2 now2 store
      (by rw [hsame]; exact hdup)
    refine ⟨hnone2, ?_⟩
    rw [run_add_auto_task, hnone2]
    simp [if_neg h0]

/-- Witness for the amended C4 at a concrete candidate and the empty store. -/
theorem add_auto_task_dedup_idempotent_witness :
    (toLowerStr (pyStrip (Candidate.mk (str "REPLY to Mike about X") none
        (str "medium")).text) =
      toLowerStr (pyStrip (Candidate.mk (str "Reply to Mike about X") none
        (str "medium")).text) ∧
      pyStrip (Candidate.mk (str "Reply to Mike about X") none
        (str "medium")).text ≠ []) ∧
    (add_auto_task (Candidate.mk (str "REPLY to Mike about X") none (str "medium"))
        (str "slack") (str "#x") (str "2025-01-01") (str "i2") 0
        (run_add_auto_task
          (Candidate.mk (str "Reply to Mike about X") none (str "medium"))
          (str "email") (str "s") (str "2025-01-01") (str "i1") 0
          (Store.mk [] [])) = none ∧
      countTaskText (toLowerStr (pyStrip (Candidate.mk
          (str "Reply to Mike about X") none (str "medium")).text))
        (run_add_auto_task
          (Candidate.mk (str "REPLY to Mike about X") none (str "medium"))
          (str "slack") (str "#x") (str "2025-01-01") (str "i2") 0
          (run_add_auto_task
            (Candidate.mk (str "Reply to Mike about X") none (str "medium"))
            (str "email") (str "s") (str "2025-01-01") (str "i1") 0
            (Store.mk [] []))) =
        (if countTaskText (toLowerStr (pyStrip (Candidate.mk
            (str "Reply to Mike about X") none (str "medium")).text))
            (Store.mk [] []) = 0 then 1
          else countTaskText (toLowerStr (pyStrip (Candidate.mk
            (str "Reply to Mike about X") none (str "medium")).text))
            (Store.mk [] []))) :=
  ⟨⟨by decide, by decide⟩,
    add_auto_task_dedup_idempotent
      (Candidate.mk (str "Reply to Mike about X") none (str "medium"))
      (Candidate.mk (str "REPLY to Mike about X") none (str "medium"))
      (str "email") (str "s") (str "slack") (str "#x") (str "2025-01-01")
      (str "i1") (str "i2") 0 0 (Store.mk [] []) (by decide) (by decide)⟩

end TodoApp

namespace TodoApp

-- ── Processed-message ledger (C3) ────────────────────────────────────────────

/-- The processed-message tracking state: the in-memory Python set `_processed`
(listed canonically in first-marked order) and the JSON array last written to
`processed.json`. -/
structure Ledger where
  mem : List Str
  file : List Str
deriving DecidableEq, Repr

/-- `is_processed(pid)` (src/server.py lines 145–146): membership in the
in-memory set `_processed`. -/
def is_processed (st : Ledger) (pid : Str) : Bool :=
  decide (pid ∈ st.mem)

/-- `_processed.add(pid)`: the set's members after adding `pid` (the canonical
listing records first-marked order; a set has no observable order). -/
def setAdd (mem : List Str) (pid : Str) : List Str :=
  if pid ∈ mem then mem else mem ++ [pid]

/-- Python's `xs[-n:]`: the last `n` elements (all of them when fewer). -/
def lastSlice (n : Nat) (l : List Str) : List Str := l.drop (l.length - n)

/-- `mark_processed(pid)` (src/server.py lines 148–152): add to the in-memory
set, then persist `list(_processed)[-10000:]`.  `list(...)` enumerates a
Python set in an unspecified, hash-dependent order, so the enumeration is a
parameter `order`; theorems constrain it to list exactly the set's members. -/
def mark_processed (order : List Str → List Str) (st : Ledger) (pid : Str) : Ledger :=
  let mem := setAdd st.mem pid
  ⟨mem, lastSlice 10000 (order mem)⟩

/-- An admissible set-enumeration oracle: it lists exactly the members of the
set it is given, in some order. -/
def ValidOrder (order : List Str → List Str) : Prop :=
  ∀ l, (order l).Perm l

/-- A sequence of `mark_processed` calls. -/
def markAll (order : List Str → List Str) (st : Ledger) (pids : List Str) : Ledger :=
  pids.foldl (mark_processed order) st

/-- One admissible enumeration order: the most recently appended member first. -/
def rotLast (l : List Str) : List Str :=
  match l.reverse with
  | [] => []
  | x :: rest => x :: rest.reverse

theorem rotLast_append (l : List Str) (x : Str) : rotLast (l ++ [x]) = x :: l := by
  simp [rotLast, List.reverse_append]

theorem rotLast_valid : ValidOrder rotLast := by
  intro l
  unfold rotLast
  rcases hrev : l.reverse with - | ⟨x, rest⟩
  · simp only []
    have : l = [] := by simpa using congrArg List.reverse hrev
    rw [this]
  · simp only []
    have hl : l = rest.reverse ++ [x] := by
      have := congrArg List.reverse hrev
      simpa using this
    rw [hl]
    exact (List.perm_append_singleton x rest.reverse).symm

theorem markAll_mem (order : List Str → List Str) (st : Ledger) (pids : List Str)
    (hfresh : ∀ p ∈ pids, p ∉ st.mem) (hnodup : pids.Nodup) :
    (markAll order st pids).mem = st.mem ++ pids := by
  induction pids generalizing st with
  | nil => simp [markAll]
  | cons p ps ih =>
    have hstep : (mark_processed order st p).mem = st.mem ++ [p] := by
      simp [mark_processed, setAdd, hfresh p (by simp)]
    have hfresh' : ∀ q ∈ ps, q ∉ (mark_processed order st p).mem := by
      intro q hq
      rw [hstep]
      simp only [List.mem_append, List.mem_singleton]
      rintro (hmem | rfl)
      · exact hfresh q (by simp [hq]) hmem
      · exact (List.nodup_cons.mp hnodup).1 hq
    calc (markAll order st (p :: ps)).mem
        = (markAll order (mark_processed order st p) ps).mem := rfl
      _ = (mark_processed order st p).mem ++ ps :=
          ih _ hfresh' (List.nodup_cons.mp hnodup).2
      _ = st.mem ++ p :: ps := by rw [hstep]; simp

theorem markAll_file (order : List Str → List Str) (st : Ledger) (pids : List Str)
    (hne : pids ≠ []) :
    (markAll order st pids).file =
      lastSlice 10000 (order (markAll order st pids).mem) := by
  induction pids generalizing st with
  | nil => exact absurd rfl hne
  | cons p ps ih =>
    cases ps with
    | nil => simp [markAll, mark_processed]
    | cons q qs => exact ih (mark_processed order st p) (by simp)

theorem markAll_is_processed (order : List Str → List Str) (st : Ledger)
    (pids : List Str) (pid : Str)
    (h : pid ∈ pids ∨ is_processed st pid = true) :
    is_processed (markAll order st pids) pid = true := by
  induction pids generalizing st with
  | nil =>
    rcases h with h | h
    · cases h
    · exact h
  | cons p ps ih =>
    have hmono : is_processed st pid = true →
        is_processed (mark_processed order st p) pid = true := by
      intro hmem
      simp only [is_processed, mark_processed, setAdd, decide_eq_true_eq] at hmem ⊢
      split <;> simp [hmem]
    rcases h with h | h
    · rcases List.mem_cons.mp h with rfl | hps
      · refine ih _ (Or.inr ?_)
        simp [is_processed, mark_processed, setAdd]
        split <;> simp_all
      · exact ih _ (Or.inl hps)
    · exact ih _ (Or.inr (hmono h))

end TodoApp

namespace TodoApp

-- ── Claim C3 ─────────────────────────────────────────────────────────────────

/-- Distinct message ids for the eviction counterexample (length-coded). -/
def c3id (n : Nat) : Str := List.replicate (n + 1) 'a'

theorem c3id_injective : Function.Injective c3id := by
  intro a b h
  have h2 : a + 1 = b + 1 := by
    simpa [c3id] using congrArg List.length h
  omega

/-- C3 counterexample: `mark_processed` truncates `list(_processed)` — an
arbitrary enumeration of a Python set — so eviction is not oldest-first.
Under the admissible enumeration `rotLast`, after 10001 marks of distinct ids
the id marked by the MOST RECENT call is the one missing from the persisted
ledger while the id marked first is retained; `is_processed` still reports the
evicted id as processed because the in-memory set is never pruned. -/
theorem mark_processed_oldest_first_counterexample :
    ValidOrder rotLast ∧
    c3id 10000 ∉ (markAll rotLast ⟨[], []⟩ ((List.range 10001).map c3id)).file ∧
    c3id 0 ∈ (markAll rotLast ⟨[], []⟩ ((List.range 10001).map c3id)).file ∧
    is_processed (markAll rotLast ⟨[], []⟩ ((List.range 10001).map c3id))
      (c3id 10000) = true := by
  have hnodup : ((List.range 10001).map c3id).Nodup :=
    List.Nodup.map c3id_injective (List.nodup_range 10001)
  have hmem : (markAll rotLast ⟨[], []⟩ ((List.range 10001).map c3id)).mem =
      (List.range 10001).map c3id := by
    rw [markAll_mem _ _ _ (by simp) hnodup]
    simp
  have hids : (List.range 10001).map c3id =
      (List.range 10000).map c3id ++ [c3id 10000] := by
    rw [List.range_succ, List.map_append]
    simp
  have hfile : (markAll rotLast ⟨[], []⟩ ((List.range 10001).map c3id)).file =
      (List.range 10000).map c3id := by
    rw [markAll_file _ _ _ (by simp), hmem, hids, rotLast_append]
    unfold lastSlice
    simp
  refine ⟨rotLast_valid, ?_, ?_, ?_⟩
  · rw [hfile]
    intro hcontra
    obtain ⟨k, hk, hkeq⟩ := List.mem_map.mp hcontra
    have hk10 : k = 10000 := c3id_injective hkeq
    have hklt : k < 10000 := List.mem_range.mp hk
    omega
  · rw [hfile]
    exact List.mem_map.mpr ⟨0, by simp, rfl⟩
  · simp only [is_processed, hmem, decide_eq_true_eq]
    exact List.mem_map.mpr ⟨10000, by simp, rfl⟩

end TodoApp

namespace TodoApp

/-- C3 amended: for every sequence of `mark_processed` calls and every
admissible set-enumeration order, the persisted ledger is capped to 10000
entries drawn from the set of marked ids, but the evicted entries are whichever
ids the unordered set enumeration happens to list first — not necessarily the
oldest.  `is_processed` consults the in-memory set, which is never pruned, so
every id marked during the process lifetime (not merely the last 10000 calls)
is still reported processed. -/
theorem mark_processed_ledger
    (order : List Str → List Str) (horder : ValidOrder order)
    (st : Ledger) (pids : List Str) (pid : Str)
    (hmarked : pid ∈ pids ∨ is_processed st pid = true) :
    is_processed (markAll order st pids) pid = true ∧
    (pids ≠ [] →
      (markAll order st pids).file.length ≤ 10000 ∧
      ∀ q ∈ (markAll order st pids).file, q ∈ (markAll order st pids).mem) := by
  refine ⟨markAll_is_processed order st pids pid hmarked, ?_⟩
  intro hne
  rw [markAll_file order st pids hne]
  constructor
  · unfold lastSlice
    rw [List.length_drop]
    omega
  · intro q hq
    have hq2 : q ∈ order (markAll order st pids).mem := List.mem_of_mem_drop hq
    exact ((horder _).mem_iff).mp hq2

/-- Witness for the amended C3: one mark with the identity enumeration. -/
theorem mark_processed_ledger_witness :
    (ValidOrder (fun l => l) ∧
      (str "email_m1" ∈ [str "email_m1"] ∨
        is_processed ⟨[], []⟩ (str "email_m1") = true)) ∧
    (is_processed (markAll (fun l => l) ⟨[], []⟩ [str "email_m1"])
        (str "email_m1") = true ∧
      (([str "email_m1"] : List Str) ≠ [] →
        (markAll (fun l => l) ⟨[], []⟩ [str "email_m1"]).file.length ≤ 10000 ∧
        ∀ q ∈ (markAll (fun l => l) ⟨[], []⟩ [str "email_m1"]).file,
          q ∈ (markAll (fun l => l) ⟨[], []⟩ [str "email_m1"]).mem)) :=
  ⟨⟨fun l => List.Perm.refl l, Or.inl (by simp)⟩,
    mark_processed_ledger (fun l => l) (fun l => List.Perm.refl l) ⟨[], []⟩
      [str "email_m1"] (str "email_m1") (Or.inl (by simp))⟩

end TodoApp

namespace TodoApp

-- ── Calendar arithmetic (model of `datetime.date` ordinals / timedelta) ──────

/-- `date.toordinal()`: the day number of a proleptic-Gregorian date, with
0001-01-01 ↦ 1, via the standard shifted-era (March-based) civil-calendar
formula. -/
def Date.toOrdinal (d : Date) : Nat :=
  let y := if d.month ≤ 2 then d.year - 1 else d.year
  let era := y / 400
  let yoe := y % 400
  let mp := if 2 < d.month then d.month - 3 else d.month + 9
  let doy := (153 * mp + 2) / 5 + d.day - 1
  era * 146097 + (yoe * 365 + yoe / 4 - yoe / 100 + doy) - 305

/-- The next calendar day. -/
def succDay (d : Date) : Date :=
  if d.day < daysInMonth d.year d.month then ⟨d.year, d.month, d.day + 1⟩
  else if d.month < 12 then ⟨d.year, d.month + 1, 1⟩
  else ⟨d.year + 1, 1, 1⟩

/-- The previous calendar day. -/
def predDay (d : Date) : Date :=
  if 1 < d.day then ⟨d.year, d.month, d.day - 1⟩
  else if 1 < d.month then ⟨d.year, d.month - 1, daysInMonth d.year (d.month - 1)⟩
  else ⟨d.year - 1, 12, 31⟩

/-- `d + timedelta(days=n)` (every delta in `_parse_date` is at most a month). -/
def Date.addDays : Date → Nat → Date
  | d, 0 => d
  | d, n + 1 => succDay (d.addDays n)

/-- `d - timedelta(days=n)`. -/
def Date.subDays : Date → Nat → Date
  | d, 0 => d
  | d, n + 1 => predDay (d.subDays n)

/-- `date.weekday()`: Monday = 0 … Sunday = 6 (0001-01-01 was a Monday). -/
def Date.weekday (d : Date) : Nat := (d.toOrdinal + 6) % 7

theorem isLeapYear_iff (y : Nat) :
    isLeapYear y = true ↔ ((y % 4 = 0 ∧ y % 100 ≠ 0) ∨ y % 400 = 0) := by
  simp [isLeapYear, Bool.or_eq_true, Bool.and_eq_true, beq_iff_eq, bne_iff_ne]

theorem daysInMonth_pos (y m : Nat) : 1 ≤ daysInMonth y m := by
  unfold daysInMonth
  split_ifs <;> norm_num

theorem ordinal_same_month (y m dd : Nat) (hy : 1 ≤ y) (hm : 1 ≤ m)
    (hm2 : m ≤ 12) (hd : 1 ≤ dd) :
    (Date.mk y m (dd + 1)).toOrdinal = (Date.mk y m dd).toOrdinal + 1 := by
  simp only [Date.toOrdinal]
  split_ifs <;> omega

theorem ordinal_year_roll (y : Nat) (hy : 1 ≤ y) :
    (Date.mk (y + 1) 1 1).toOrdinal = (Date.mk y 12 31).toOrdinal + 1 := by
  simp only [Date.toOrdinal]
  split_ifs <;> omega

theorem feb_arith_nonleap (y : Nat) (hy : 1 ≤ y)
    (hleap : ¬((y % 4 = 0 ∧ y % 100 ≠ 0) ∨ y % 400 = 0)) :
    y / 400 * 146097 + (y % 400 * 365 + y % 400 / 4 - y % 400 / 100) - 305 =
    (y - 1) / 400 * 146097 +
      ((y - 1) % 400 * 365 + (y - 1) % 400 / 4 - (y - 1) % 400 / 100 + 364) - 305 + 1 := by
  obtain ⟨e, u, hy1, hu⟩ : ∃ e u, y - 1 = 400 * e + u ∧ u < 400 :=
    ⟨(y - 1) / 400, (y - 1) % 400, (Nat.div_add_mod _ _).symm, Nat.mod_lt _ (by norm_num)⟩
  have he : (y - 1) / 400 = e := by omega
  have hu2 : (y - 1) % 400 = u := by omega
  rw [he, hu2]
  rcases Nat.lt_or_ge u 399 with hlt | h399
  · have h3 : y / 400 = e := by omega
    have h4 : y % 400 = u + 1 := by omega
    rw [h3, h4]
    have hl2 : ¬(((u + 1) % 4 = 0 ∧ (u + 1) % 100 ≠ 0) ∨ (u + 1) % 400 = 0) := by
      have e4 : y % 4 = (u + 1) % 4 := by omega
      have e100 : y % 100 = (u + 1) % 100 := by omega
      have e400 : y % 400 = (u + 1) % 400 := by omega
      rw [e4, e100, e400] at hleap
      exact hleap
    omega
  · exfalso
    apply hleap
    right
    omega

theorem feb_arith_leap (y : Nat) (hy : 1 ≤ y)
    (hleap : (y % 4 = 0 ∧ y % 100 ≠ 0) ∨ y % 400 = 0) :
    y / 400 * 146097 + (y % 400 * 365 + y % 400 / 4 - y % 400 / 100) - 305 =
    (y - 1) / 400 * 146097 +
      ((y - 1) % 400 * 365 + (y - 1) % 400 / 4 - (y - 1) % 400 / 100 + 365) - 305 + 1 := by
  obtain ⟨e, u, hy1, hu⟩ : ∃ e u, y - 1 = 400 * e + u ∧ u < 400 :=
    ⟨(y - 1) / 400, (y - 1) % 400, (Nat.div_add_mod _ _).symm, Nat.mod_lt _ (by norm_num)⟩
  have he : (y - 1) / 400 = e := by omega
  have hu2 : (y - 1) % 400 = u := by omega
  rw [he, hu2]
  rcases Nat.lt_or_ge u 399 with hlt | h399
  · have h3 : y / 400 = e := by omega
    have h4 : y % 400 = u + 1 := by omega
    rw [h3, h4]
    have hl2 : ((u + 1) % 4 = 0 ∧ (u + 1) % 100 ≠ 0) ∨ (u + 1) % 400 = 0 := by
      have e4 : y % 4 = (u + 1) % 4 := by omega
      have e100 : y % 100 = (u + 1) % 100 := by omega
      have e400 : y % 400 = (u + 1) % 400 := by omega
      rw [e4, e100, e400] at hleap
      exact hleap
    omega
  · have hu399 : u = 399 := by omega
    have h3 : y / 400 = e + 1 := by omega
    have h4 : y % 400 = 0 := by omega
    rw [h3, h4, hu399]
    omega

theorem ordinal_feb_roll (y : Nat) (hy : 1 ≤ y) :
    (Date.mk y 3 1).toOrdinal = (Date.mk y 2 (daysInMonth y 2)).toOrdinal + 1 := by
  have hiff := isLeapYear_iff y
  rcases hl : isLeapYear y with - | -
  · rw [hl] at hiff
    simp only [Bool.false_eq_true, false_iff] at hiff
    have hdim : daysInMonth y 2 = 28 := by simp [daysInMonth, hl]
    rw [hdim]
    simp only [Date.toOrdinal]
    norm_num
    exact feb_arith_nonleap y hy hiff
  · rw [hl] at hiff
    simp only [eq_self_iff_true, true_iff] at hiff
    have hdim : daysInMonth y 2 = 29 := by simp [daysInMonth, hl]
    rw [hdim]
    simp only [Date.toOrdinal]
    norm_num
    exact feb_arith_leap y hy hiff

set_option maxHeartbeats 1000000 in
theorem ordinal_month_roll (y m : Nat) (hy : 1 ≤ y) (hm : 1 ≤ m) (hm2 : m ≤ 11) :
    (Date.mk y (m + 1) 1).toOrdinal = (Date.mk y m (daysInMonth y m)).toOrdinal + 1 := by
  by_cases hne : m = 2
  · subst hne
    exact ordinal_feb_roll y hy
  · simp only [Date.toOrdinal, daysInMonth]
    interval_cases m <;> first
      | exact absurd rfl hne
      | (norm_num
         omega)

/-- The core calendar-stepping fact: advancing one day advances the ordinal by
one. -/
theorem toOrdinal_succDay {d : Date} (h : d.Valid) :
    (succDay d).toOrdinal = d.toOrdinal + 1 := by
  obtain ⟨h1, h2, h3, h4, h5, h6⟩ := h
  unfold succDay
  split_ifs with hA hB
  · exact ordinal_same_month d.year d.month d.day h1 h3 h4 h5
  · have hday : d.day = daysInMonth d.year d.month := le_antisymm h6 (not_lt.mp hA)
    have := ordinal_month_roll d.year d.month h1 h3 (by omega)
    rw [← hday] at this
    simpa using this
  · have hday : d.day = daysInMonth d.year d.month := le_antisymm h6 (not_lt.mp hA)
    have hm12 : d.month = 12 := by omega
    have h31 : daysInMonth d.year 12 = 31 := by simp [daysInMonth]
    have := ordinal_year_roll d.year h1
    rw [← h31, ← hm12, ← hday] at this
    simpa using this

theorem succDay_valid {d : Date} (h : d.Valid) (hne : d ≠ ⟨9999, 12, 31⟩) :
    (succDay d).Valid := by
  obtain ⟨h1, h2, h3, h4, h5, h6⟩ := h
  unfold succDay
  split_ifs with hA hB
  · refine ⟨h1, h2, h3, h4, ?_, ?_⟩
    · show 1 ≤ d.day + 1
      omega
    · show d.day + 1 ≤ daysInMonth d.year d.month
      omega
  · refine ⟨h1, h2, ?_, ?_, ?_, ?_⟩
    · show 1 ≤ d.month + 1
      omega
    · show d.month + 1 ≤ 12
      omega
    · show 1 ≤ 1
      exact le_refl 1
    · show 1 ≤ daysInMonth d.year (d.month + 1)
      exact daysInMonth_pos _ _
  · have hday : d.day = daysInMonth d.year d.month := le_antisymm h6 (not_lt.mp hA)
    have hm12 : d.month = 12 := by omega
    have h31 : daysInMonth d.year 12 = 31 := by simp [daysInMonth]
    have hy : d.year ≠ 9999 := by
      intro hcontra
      apply hne
      cases d
      simp_all
    refine ⟨?_, ?_, ?_, ?_, ?_, ?_⟩
    · show 1 ≤ d.year + 1
      omega
    · show d.year + 1 ≤ 9999
      omega
    · show 1 ≤ 1
      exact le_refl 1
    · show (1 : Nat) ≤ 12
      norm_num
    · show 1 ≤ 1
      exact le_refl 1
    · show 1 ≤ daysInMonth (d.year + 1) 1
      exact daysInMonth_pos _ _

theorem lastday_ordinal : (Date.mk 9999 12 31).toOrdinal = 3652059 := by decide

/-- Adding `n` days to a valid date that stays inside `datetime`'s range yields
a valid date whose ordinal advanced by `n`. -/
theorem addDays_spec {d : Date} (h : d.Valid) (n : Nat)
    (hbound : d.toOrdinal + n ≤ 3652059) :
    (d.addDays n).Valid ∧ (d.addDays n).toOrdinal = d.toOrdinal + n := by
  induction n with
  | zero =>
    refine ⟨h, ?_⟩
    simp only [Date.addDays]
    omega
  | succ k ih =>
    obtain ⟨ihv, iho⟩ := ih (by omega)
    have hne : d.addDays k ≠ ⟨9999, 12, 31⟩ := by
      intro hcontra
      rw [hcontra, lastday_ordinal] at iho
      omega
    refine ⟨succDay_valid ihv hne, ?_⟩
    simp only [Date.addDays]
    rw [toOrdinal_succDay ihv, iho]
    omega

theorem weekday_addDays {d : Date} (h : d.Valid) (n : Nat)
    (hbound : d.toOrdinal + n ≤ 3652059) :
    (d.addDays n).weekday = (d.weekday + n) % 7 := by
  unfold Date.weekday
  rw [(addDays_spec h n hbound).2]
  omega

end TodoApp

namespace TodoApp

-- ── Word-boundary pattern matching (the regex searches of `_parse_date`) ─────

/-- Is `p` a literal prefix of `s`? -/
def isPrefixB : Str → Str → Bool
  | [], _ => true
  | _ :: _, [] => false
  | a :: ps, b :: ss => a = b && isPrefixB ps ss

/-- `\b` after a word character: the next character is absent or non-word. -/
def boundaryOkAfter (rest : Str) : Bool :=
  match rest with
  | [] => true
  | c :: _ => !isWordChar c

/-- Match a multi-word phrase (words separated by `\s+`) at the start of `s`;
returns the remainder on success. -/
def matchPhrase : List Str → Str → Option Str
  | [], s => some s
  | [w], s => if isPrefixB w s then some (s.drop w.length) else none
  | w :: ws, s =>
    if isPrefixB w s then
      let rest := s.drop w.length
      let rest2 := rest.dropWhile pyIsSpace
      if rest2.length < rest.length then matchPhrase ws rest2 else none
    else none

/-- Do any of the phrase alternatives match at the start of `s`, followed by a
word boundary?  (Models `(alt1|alt2|…)\b` at a fixed position.) -/
def altsMatchAt (alts : List (List Str)) (s : Str) : Bool :=
  alts.any fun alt =>
    match matchPhrase alt s with
    | some rest => boundaryOkAfter rest
    | none => false

/-- `re.search(r'\b(alt1|alt2|…)\b', s)`: scan left to right, attempting each
alternative at every position that sits at a `\b` word boundary.  The boolean
argument carries "the previous character is absent or non-word". -/
def searchWordAlts (alts : List (List Str)) : Str → Bool → Bool
  | [], _ => false
  | c :: cs, atB =>
    if atB && altsMatchAt alts (c :: cs) then true
    else searchWordAlts alts cs (!isWordChar c)

/-- `\b(eod|cob|end\s+of\s+(the\s+)?day)\b` (src/server.py line 197). -/
def eodAlts : List (List Str) :=
  [[str "eod"], [str "cob"], [str "end", str "of", str "day"],
   [str "end", str "of", str "the", str "day"]]

/-- `\bend\s+of\s+(the\s+)?week\b` (line 199). -/
def eowAlts : List (List Str) :=
  [[str "end", str "of", str "week"], [str "end", str "of", str "the", str "week"]]

/-- `\bend\s+of\s+(the\s+)?month\b` (line 202). -/
def eomAlts : List (List Str) :=
  [[str "end", str "of", str "month"], [str "end", str "of", str "the", str "month"]]

/-- The `_WEEKDAYS` table (line 185): weekday names with Monday = 0. -/
def weekdayNames : List (Str × Nat) :=
  [(str "monday", 0), (str "tuesday", 1), (str "wednesday", 2),
   (str "thursday", 3), (str "friday", 4), (str "saturday", 5), (str "sunday", 6)]

/-- The `_MONTHS` table (lines 178–184), in dict-iteration (insertion) order:
full names first, then the abbreviations. -/
def monthNames : List (Str × Nat) :=
  [(str "january", 1), (str "february", 2), (str "march", 3), (str "april", 4),
   (str "may", 5), (str "june", 6), (str "july", 7), (str "august", 8),
   (str "september", 9), (str "october", 10), (str "november", 11),
   (str "december", 12),
   (str "jan", 1), (str "feb", 2), (str "mar", 3), (str "apr", 4),
   (str "jun", 6), (str "jul", 7), (str "aug", 8), (str "sep", 9),
   (str "oct", 10), (str "nov", 11), (str "dec", 12)]

def isDigitB (c : Char) : Bool := '0' ≤ c && c ≤ '9'

def digitVal (c : Char) : Nat := c.toNat - 48

/-- `\s+`: require at least one whitespace character, consume the whole run. -/
def dropWs1 (s : Str) : Option Str :=
  match s with
  | c :: cs => if pyIsSpace c then some (cs.dropWhile pyIsSpace) else none
  | [] => none

/-- Match `(?:by|on|due)\s+(?:next\s+)?(<weekday>)\b` at the start of `s`
(the weekday-phrase pattern of line 206–207); returns the weekday number. -/
def matchWeekdayAt (s : Str) : Option Nat :=
  let afterKw : Option Str :=
    if isPrefixB (str "by") s then some (s.drop 2)
    else if isPrefixB (str "on") s then some (s.drop 2)
    else if isPrefixB (str "due") s then some (s.drop 3)
    else none
  match afterKw with
  | none => none
  | some rest =>
    match dropWs1 rest with
    | none => none
    | some rest2 =>
      let tryNames : Str → Option Nat := fun u =>
        (weekdayNames.find? fun (nm, _) =>
          isPrefixB nm u && boundaryOkAfter (u.drop nm.length)).map Prod.snd
      -- `(?:next\s+)?` is greedy: try with "next" first, then without
      match matchPhrase [str "next", []] rest2 with
      | some rest3 =>
        match tryNames rest3 with
        | some w => some w
        | none => tryNames rest2
      | none => tryNames rest2

/-- `re.search` for the weekday phrase: leftmost match wins. -/
def searchWeekday : Str → Bool → Option Nat
  | [], _ => none
  | c :: cs, atB =>
    match (if atB then matchWeekdayAt (c :: cs) else none) with
    | some w => some w
    | none => searchWeekday cs (!isWordChar c)

end TodoApp

namespace TodoApp

/-- Parse exactly four digits. -/
def parse4Digits (s : Str) : Option (Nat × Str) :=
  match s with
  | a :: b :: c :: d :: rest =>
    if isDigitB a && isDigitB b && isDigitB c && isDigitB d then
      some (1000 * digitVal a + 100 * digitVal b + 10 * digitVal c + digitVal d, rest)
    else none
  | _ => none

/-- Parse one or two digits, greedily (two first), as the regexes'
`(\d{1,2})` does; returns the candidate parses longest-first. -/
def parse2or1Digits (s : Str) : List (Nat × Str) :=
  match s with
  | a :: b :: rest =>
    if isDigitB a && isDigitB b then
      [(10 * digitVal a + digitVal b, rest), (digitVal a, b :: rest)]
    else if isDigitB a then [(digitVal a, b :: rest)]
    else []
  | [a] => if isDigitB a then [(digitVal a, [])] else []
  | [] => []

/-- Tail of the month-name pattern after the day digits:
`(?:st|nd|rd|th)?\s*(?:,?\s*(\d{4}))?\b` — returns `some yearOpt` on a match. -/
def matchDayTail (s0 : Str) : Option (Option Nat) :=
  let s1 :=
    if isPrefixB (str "st") s0 then s0.drop 2
    else if isPrefixB (str "nd") s0 then s0.drop 2
    else if isPrefixB (str "rd") s0 then s0.drop 2
    else if isPrefixB (str "th") s0 then s0.drop 2
    else s0
  let s2 := s1.dropWhile pyIsSpace
  let s3 := match s2 with
    | ',' :: rest => rest.dropWhile pyIsSpace
    | _ => s2
  match parse4Digits s3 with
  | some (yr, rest) =>
    if boundaryOkAfter rest then some (some yr)
    else if boundaryOkAfter s1 then some none
    else none
  | none => if boundaryOkAfter s1 then some none else none

/-- Match the month-name pattern (src/server.py lines 211–212)
`\b(<month>)\s+(\d{1,2})(?:st|nd|rd|th)?\s*(?:,?\s*(\d{4}))?\b` at a position,
trying the alternatives in `_MONTHS` dict order with backtracking over the
day-digit width. -/
def matchMonthNameAt (s : Str) : Option (Nat × Nat × Option Nat) :=
  monthNames.firstM fun (nm, m) =>
    if isPrefixB nm s then
      match dropWs1 (s.drop nm.length) with
      | none => none
      | some rest2 =>
        (parse2or1Digits rest2).firstM fun (day, rest3) =>
          (matchDayTail rest3).map fun yr => (m, day, yr)
    else none

/-- Match `(\d{4})-(\d{2})-(\d{2})\b` at a position. -/
def matchIsoAt (s : Str) : Option (Nat × Nat × Nat) :=
  match parse4Digits s with
  | none => none
  | some (y, rest) =>
    match rest with
    | '-' :: a :: b :: '-' :: c :: d :: rest2 =>
      if isDigitB a && isDigitB b && isDigitB c && isDigitB d &&
          boundaryOkAfter rest2 then
        some (y, 10 * digitVal a + digitVal b, 10 * digitVal c + digitVal d)
      else none
    | _ => none

/-- Parse two to four digits, greedily (longest first). -/
def parse2to4Digits (s : Str) : List (Nat × Str) :=
  match s with
  | a :: b :: c :: d :: rest =>
    if isDigitB a && isDigitB b && isDigitB c && isDigitB d then
      [(1000 * digitVal a + 100 * digitVal b + 10 * digitVal c + digitVal d, rest),
       (100 * digitVal a + 10 * digitVal b + digitVal c, d :: rest),
       (10 * digitVal a + digitVal b, c :: d :: rest)]
    else if isDigitB a && isDigitB b && isDigitB c then
      [(100 * digitVal a + 10 * digitVal b + digitVal c, d :: rest),
       (10 * digitVal a + digitVal b, c :: d :: rest)]
    else if isDigitB a && isDigitB b then
      [(10 * digitVal a + digitVal b, c :: d :: rest)]
    else []
  | [a, b, c] =>
    if isDigitB a && isDigitB b && isDigitB c then
      [(100 * digitVal a + 10 * digitVal b + digitVal c, []),
       (10 * digitVal a + digitVal b, [c])]
    else if isDigitB a && isDigitB b then [(10 * digitVal a + digitVal b, [c])]
    else []
  | [a, b] => if isDigitB a && isDigitB b then [(10 * digitVal a + digitVal b, [])] else []
  | _ => []

/-- Match the slash-date pattern (line 231)
`\b(\d{1,2})/(\d{1,2})(?:/(\d{2,4}))?\b` at a position. -/
def matchSlashAt (s : Str) : Option (Nat × Nat × Option Nat) :=
  (parse2or1Digits s).firstM fun (mm, rest1) =>
    match rest1 with
    | '/' :: rest2 =>
      (parse2or1Digits rest2).firstM fun (dd, rest3) =>
        match rest3 with
        | '/' :: rest4 =>
          match (parse2to4Digits rest4).firstM fun (yr, rest5) =>
              if boundaryOkAfter rest5 then some yr else none with
          | some yr => some (mm, dd, some yr)
          | none =>
            -- the optional year group can also match nothing: then `\b` sits
            -- between the day digit and the following '/'
            some (mm, dd, none)
        | _ => if boundaryOkAfter rest3 then some (mm, dd, none) else none
    | _ => none

/-- Generic leftmost `re.search` over position matchers, tracking the word
boundary before the current position. -/
def searchPos {α : Type} (f : Str → Option α) : Str → Bool → Option α
  | [], _ => none
  | c :: cs, atB =>
    match (if atB then f (c :: cs) else none) with
    | some r => some r
    | none => searchPos f cs (!isWordChar c)

/-- `_next_weekday` (src/server.py lines 190–193): the next date whose weekday
is `target`, strictly after today (wrapping a full week when today matches). -/
def next_weekday (today : Date) (target : Nat) : Date :=
  let diff0 := (target + 7 - today.weekday) % 7
  let diff := if diff0 = 0 then 7 else diff0
  today.addDays diff

/-- `_parse_date(text)` (src/server.py lines 195–240): the ordered cascade of
date patterns, resolved against `today`; a pattern whose `datetime.date`
construction raises falls through to the next pattern (the `except ValueError:
pass` arms). -/
def parse_date (text : Str) (today : Date) : Option Str :=
  let t := toLowerStr text
  if searchWordAlts eodAlts t true then some today.toIso
  else if searchWordAlts eowAlts t true then
    let diff0 := (4 + 7 - today.weekday) % 7
    let diff := if diff0 = 0 then 7 else diff0
    some ((today.addDays diff).toIso)
  else if searchWordAlts eomAlts t true then
    let nm := (Date.mk today.year today.month 28).addDays 4
    some ((nm.subDays nm.day).toIso)
  else
    match searchPos matchWeekdayAt t true with
    | some w => some (next_weekday today w).toIso
    | none =>
      (match searchPos matchMonthNameAt t true with
        | some (m, day, yrOpt) =>
          (mkDate? (yrOpt.getD today.year) m day).bind fun d =>
            if Date.ltB d today then
              (mkDate? (today.year + 1) m day).map Date.toIso
            else some d.toIso
        | none => none) <|>
      (match searchPos matchIsoAt t true with
        | some (y, m, d) => (mkDate? y m d).map Date.toIso
        | none => none) <|>
      (match searchPos matchSlashAt t true with
        | some (mm, dd, yrOpt) =>
          let yr0 := yrOpt.getD today.year
          let yr := if yr0 < 100 then yr0 + 2000 else yr0
          (mkDate? yr mm dd).map Date.toIso
        | none => none)

/-- Is `c` in the due-phrase capture class `[\w/\-,\s]`? -/
def isDueClassChar (c : Char) : Bool :=
  isWordChar c || c = '/' || c = '-' || c = ',' || pyIsSpace c

/-- Match `group(0)` of `_due_phrase_re` (line 242–243),
`\b(?:by|due|before|no\s+later\s+than)\s+([\w/\-,\s]{2,35})`, at a position:
the keyword, the whitespace run, and the greedily captured class characters. -/
def matchDuePhraseAt (s : Str) : Option Str :=
  let kwLen : Option Nat :=
    if isPrefixB (str "by") s then some 2
    else if isPrefixB (str "due") s then some 3
    else if isPrefixB (str "before") s then some 6
    else match matchPhrase [str "no", str "later", str "than"] s with
      | some rest => some (s.length - rest.length)
      | none => none
  match kwLen with
  | none => none
  | some k =>
    let rest := s.drop k
    let wlen := (rest.takeWhile pyIsSpace).length
    if wlen = 0 then none
    else
      let cls := ((rest.drop wlen).takeWhile isDueClassChar).take 35
      if 2 ≤ cls.length then some (s.take (k + wlen + cls.length))
      else if 3 ≤ wlen + cls.length then some (s.take (k + wlen + cls.length))
      else none

/-- `_extract_due(sentence)` (lines 245–247): find the due phrase and parse
its `group(0)`; the search is case-insensitive, modelled by lowering first
(which `_parse_date` does anyway). -/
def extract_due (sentence : Str) (today : Date) : Option Str :=
  match searchPos matchDuePhraseAt (toLowerStr sentence) true with
  | some g0 => parse_date g0 today
  | none => none

end TodoApp

namespace TodoApp

-- ── Claim C2: slash-date resolution ──────────────────────────────────────────

/-- C2 counterexample: on 2025-06-01, when March 5 of the current year is
already past, `_parse_date("due 03/05")` still resolves to 2025-03-05 — the
slash-date branch has no next-year rollover (only the month-name branch does),
so the claimed "next year if already past" behaviour is false. -/
theorem slash_date_rollover_counterexample :
    Date.ltB ⟨2025, 3, 5⟩ ⟨2025, 6, 1⟩ = true ∧
    parse_date (str "due 03/05") ⟨2025, 6, 1⟩ = some (str "2025-03-05") ∧
    parse_date (str "due 03/05") ⟨2025, 6, 1⟩ ≠ some (str "2026-03-05") := by
  refine ⟨by decide, by decide, ?_⟩
  decide

/-- C2 amended: for every evaluation date (with a ≥3-digit year, so that the
two-digit-year 2000+ adjustment does not fire), `"due 03/05"` resolves to
March 5 of the current year — whether or not that date is already past. -/
theorem parse_due_0305 (today : Date) (h : today.Valid) (h100 : 100 ≤ today.year) :
    parse_date (str "due 03/05") today = some (Date.toIso ⟨today.year, 3, 5⟩) := by
  obtain ⟨h1, h2, h3, h4, h5, h6⟩ := h
  have hvalid : (Date.mk today.year 3 5).Valid := by
    refine ⟨h1, h2, by norm_num, by norm_num, by norm_num, ?_⟩
    show 5 ≤ daysInMonth today.year 3
    simp [daysInMonth]
  simp only [parse_date]
  rw [show searchWordAlts eodAlts (toLowerStr (str "due 03/05")) true = false from by decide]
  rw [show searchWordAlts eowAlts (toLowerStr (str "due 03/05")) true = false from by decide]
  rw [show searchWordAlts eomAlts (toLowerStr (str "due 03/05")) true = false from by decide]
  rw [show searchPos matchWeekdayAt (toLowerStr (str "due 03/05")) true = none from by decide]
  rw [show searchPos matchMonthNameAt (toLowerStr (str "due 03/05")) true = none from by decide]
  rw [show searchPos matchIsoAt (toLowerStr (str "due 03/05")) true = none from by decide]
  rw [show searchPos matchSlashAt (toLowerStr (str "due 03/05")) true =
    some (3, 5, none) from by decide]
  simp only [Bool.false_eq_true, if_false, Option.getD, Option.none_orElse]
  rw [if_neg (by omega : ¬ today.year < 100)]
  rw [mkDate?, if_pos hvalid]
  rfl

/-- Witness for the amended C2 at the concrete date 2025-06-01. -/
theorem parse_due_0305_witness :
    ((Date.mk 2025 6 1).Valid ∧ 100 ≤ (Date.mk 2025 6 1).year) ∧
    parse_date (str "due 03/05") ⟨2025, 6, 1⟩ =
      some (Date.toIso ⟨(Date.mk 2025 6 1).year, 3, 5⟩) :=
  ⟨⟨by decide, by decide⟩, parse_due_0305 ⟨2025, 6, 1⟩ (by decide) (by decide)⟩

end TodoApp

namespace TodoApp

-- ── Claim C6: weekday phrase resolution ──────────────────────────────────────

theorem toOrdinal_le_of_year_le {d : Date} (h : d.Valid) (hy : d.year ≤ 9998) :
    d.toOrdinal ≤ 3651694 := by
  obtain ⟨h1, h2, h3, h4, h5, h6⟩ := h
  have hday : d.day ≤ 31 := le_trans h6 (daysInMonth_le _ _)
  simp only [Date.toOrdinal]
  rcases le_or_lt d.month 2 with hm | hm
  · rw [if_pos hm, if_neg (by omega : ¬ 2 < d.month)]
    obtain ⟨e, u, he, hu⟩ : ∃ e u, d.year - 1 = 400 * e + u ∧ u < 400 :=
      ⟨(d.year - 1) / 400, (d.year - 1) % 400, (Nat.div_add_mod _ _).symm,
        Nat.mod_lt _ (by norm_num)⟩
    rw [show (d.year - 1) / 400 = e from by omega,
      show (d.year - 1) % 400 = u from by omega]
    omega
  · rw [if_neg (by omega : ¬ d.month ≤ 2), if_pos hm]
    obtain ⟨e, u, he, hu⟩ : ∃ e u, d.year = 400 * e + u ∧ u < 400 :=
      ⟨d.year / 400, d.year % 400, (Nat.div_add_mod _ _).symm,
        Nat.mod_lt _ (by norm_num)⟩
    rw [show d.year / 400 = e from by omega, show d.year % 400 = u from by omega]
    omega

/-- The modular arithmetic of `_next_weekday`'s day offset. -/
theorem next_weekday_arith (o w : Nat) (hw : w < 7) :
    1 ≤ (if (w + 7 - (o + 6) % 7) % 7 = 0 then 7 else (w + 7 - (o + 6) % 7) % 7) ∧
    (if (w + 7 - (o + 6) % 7) % 7 = 0 then 7 else (w + 7 - (o + 6) % 7) % 7) ≤ 7 ∧
    (o + (if (w + 7 - (o + 6) % 7) % 7 = 0 then 7 else (w + 7 - (o + 6) % 7) % 7) + 6)
        % 7 = w ∧
    ((o + 6) % 7 = w →
      (if (w + 7 - (o + 6) % 7) % 7 = 0 then 7 else (w + 7 - (o + 6) % 7) % 7) = 7) ∧
    (∀ j, 1 ≤ j →
      j < (if (w + 7 - (o + 6) % 7) % 7 = 0 then 7 else (w + 7 - (o + 6) % 7) % 7) →
      (o + j + 6) % 7 ≠ w) := by
  split_ifs with h0
  · refine ⟨by norm_num, by norm_num, by omega, fun _ => rfl, ?_⟩
    intro j hj1 hj2
    omega
  · refine ⟨by omega, by omega, by omega, ?_, ?_⟩
    · intro hwd
      omega
    · intro j hj1 hj2
      omega

/-- C6: `_next_weekday` (and hence the "by/on/due [next] weekday" branch of
`_parse_date`, which returns `_next_weekday(name).isoformat()`) resolves to
the next occurrence of the target weekday strictly after today — at most 7
days ahead, exactly 7 when today already is that weekday, and no day strictly
between today and the result has the target weekday.  In particular,
"Please send the report by Friday" evaluated on Monday 2024-01-01 resolves to
that same week's Friday, 2024-01-05. -/
theorem next_weekday_resolution :
    (∀ (today : Date) (w : Nat), today.Valid → today.year ≤ 9998 → w < 7 →
      (next_weekday today w).Valid ∧
      today.toOrdinal < (next_weekday today w).toOrdinal ∧
      (next_weekday today w).toOrdinal ≤ today.toOrdinal + 7 ∧
      (next_weekday today w).weekday = w ∧
      (today.weekday = w → (next_weekday today w).toOrdinal = today.toOrdinal + 7) ∧
      (∀ k, today.toOrdinal < k → k < (next_weekday today w).toOrdinal →
        (k + 6) % 7 ≠ w)) ∧
    (Date.mk 2024 1 1).weekday = 0 ∧
    extract_due (str "Please send the report by Friday") ⟨2024, 1, 1⟩ =
      some (str "2024-01-05") ∧
    (Date.mk 2024 1 5).weekday = 4 := by
  refine ⟨?_, by decide, by decide, by decide⟩
  intro today w h hy hw
  have hb : today.toOrdinal ≤ 3651694 := toOrdinal_le_of_year_le h hy
  have harith := next_weekday_arith today.toOrdinal w hw
  have hwdef : today.weekday = (today.toOrdinal + 6) % 7 := rfl
  simp only [next_weekday, hwdef]
  obtain ⟨ha1, ha2, ha3, ha4, ha5⟩ := harith
  obtain ⟨hv, ho⟩ := addDays_spec h
    (if (w + 7 - (today.toOrdinal + 6) % 7) % 7 = 0 then 7
      else (w + 7 - (today.toOrdinal + 6) % 7) % 7) (by omega)
  refine ⟨hv, ?_, ?_, ?_, ?_, ?_⟩
  · rw [ho]
    omega
  · rw [ho]
    omega
  · show ((today.addDays _).toOrdinal + 6) % 7 = w
    rw [ho]
    omega
  · intro hwd
    rw [ho, ha4 hwd]
  · intro k hk1 hk2
    rw [ho] at hk2
    have := ha5 (k - today.toOrdinal) (by omega) (by omega)
    intro hcontra
    apply this
    rw [show today.toOrdinal + (k - today.toOrdinal) + 6 = k + 6 from by omega]
    exact hcontra

/-- Witness for C6's universal part at Monday 2025-06-02 targeting Friday. -/
theorem next_weekday_resolution_witness :
    ((Date.mk 2025 6 2).Valid ∧ (Date.mk 2025 6 2).year ≤ 9998 ∧ 4 < 7) ∧
    ((next_weekday ⟨2025, 6, 2⟩ 4).Valid ∧
      (Date.mk 2025 6 2).toOrdinal < (next_weekday ⟨2025, 6, 2⟩ 4).toOrdinal ∧
      (next_weekday ⟨2025, 6, 2⟩ 4).toOrdinal ≤ (Date.mk 2025 6 2).toOrdinal + 7 ∧
      (next_weekday ⟨2025, 6, 2⟩ 4).weekday = 4 ∧
      ((Date.mk 2025 6 2).weekday = 4 →
        (next_weekday ⟨2025, 6, 2⟩ 4).toOrdinal = (Date.mk 2025 6 2).toOrdinal + 7) ∧
      (∀ k, (Date.mk 2025 6 2).toOrdinal < k →
        k < (next_weekday ⟨2025, 6, 2⟩ 4).toOrdinal → (k + 6) % 7 ≠ 4)) :=
  ⟨⟨by decide, by decide, by decide⟩,
    next_weekday_resolution.1 ⟨2025, 6, 2⟩ 4 (by decide) (by decide) (by decide)⟩

end TodoApp

namespace TodoApp

-- ── `_priority` (src/server.py lines 249–255) ────────────────────────────────

/-- The urgency vocabulary `\b(urgent|asap|immediately|critical|blocker|p0|p1|top\s+priority)\b`. -/
def urgencyAlts : List (List Str) :=
  [[str "urgent"], [str "asap"], [str "immediately"], [str "critical"],
   [str "blocker"], [str "p0"], [str "p1"], [str "top", str "priority"]]

/-- The importance / time-pressure vocabulary
`\b(important|high\s+priority|soon|today|eod|cob|end\s+of\s+day)\b`. -/
def importanceAlts : List (List Str) :=
  [[str "important"], [str "high", str "priority"], [str "soon"], [str "today"],
   [str "eod"], [str "cob"], [str "end", str "of", str "day"]]

/-- `_priority(sentence)`: "high" on urgency or importance vocabulary in the
lowercased sentence, else "medium" (no path yields "low"). -/
def priorityOf (sentence : Str) : Str :=
  let s := toLowerStr sentence
  if searchWordAlts urgencyAlts s true then str "high"
  else if searchWordAlts importanceAlts s true then str "high"
  else str "medium"

-- ── `_clean` (lines 257–261) ─────────────────────────────────────────────────

/-- The bullet-glyph class `[-•*>•●]` ('•' is U+2022). -/
def isBulletChar (c : Char) : Bool :=
  c = '-' || c = '•' || c = '*' || c = '>' || c = '●'

/-- Worker for whitespace collapsing; `inRun` records that the current
whitespace run has already been replaced by a single space and its remaining
characters are being skipped. -/
def collapseWsAux : Bool → Str → Str
  | _, [] => []
  | inRun, c :: cs =>
    if pyIsSpace c then
      if inRun then collapseWsAux true cs
      else
        match cs with
        | [] => [c]
        | d :: _ =>
          if pyIsSpace d then ' ' :: collapseWsAux true cs
          else c :: collapseWsAux false cs
    else c :: collapseWsAux false cs

/-- `re.sub(r'\s{2,}', ' ', s)`: collapse whitespace runs of length ≥ 2 into a
single space (a lone whitespace character is kept as-is). -/
def collapseWs (s : Str) : Str := collapseWsAux false s

/-- `_clean(s)`: strip, drop leading bullet glyphs plus following whitespace,
collapse inner whitespace runs, capitalize the first letter. -/
def cleanText (s : Str) : Str :=
  let s1 := pyStrip s
  let s2 :=
    match s1 with
    | c :: _ =>
      if isBulletChar c then (s1.dropWhile isBulletChar).dropWhile pyIsSpace
      else s1
    | [] => s1
  let s3 := collapseWs s2
  match s3 with
  | [] => []
  | c :: cs => c.toUpper :: cs

-- ── Segmentation (line 264) ──────────────────────────────────────────────────

/-- Single-pass splitter equivalent (after per-line strip and empty-filter) to
`re.split(r'[\n\r]+|(?<=[.!?])\s+', content)`: break at newline characters and
at whitespace preceded by sentence-ending punctuation. -/
def splitSegsAux (acc : Str) (prev : Option Char) : Str → List Str
  | [] => [acc.reverse]
  | c :: cs =>
    if c = '\n' ∨ c = '\r' then acc.reverse :: splitSegsAux [] (some c) cs
    else if pyIsSpace c ∧ (prev = some '.' ∨ prev = some '!' ∨ prev = some '?') then
      acc.reverse :: splitSegsAux [] (some c) cs
    else splitSegsAux (c :: acc) (some c) cs

/-- `[l.strip() for l in re.split(...)] if l.strip()`: the candidate lines. -/
def extractLines (content : Str) : List Str :=
  ((splitSegsAux [] none content).map pyStrip).filter (· ≠ [])

-- ── `re.sub(r'\([^)]*\)', ' ', ctx)` (line 384) ──────────────────────────────

/-- Worker: `none` = normal scanning; `some buf` = an unclosed `(` was seen and
`buf` holds (reversed) the characters read since, emitted literally if no `)`
ever arrives (an unmatched `(` is no match, and no later match is possible
without any `)` in the remainder). -/
def stripParensAux : Option Str → Str → Str
  | none, [] => []
  | some buf, [] => '(' :: buf.reverse
  | none, c :: cs =>
    if c = '(' then stripParensAux (some []) cs
    else c :: stripParensAux none cs
  | some buf, c :: cs =>
    if c = ')' then ' ' :: stripParensAux none cs
    else stripParensAux (some (c :: buf)) cs

/-- Replace every parenthesized group (the leftmost-longest `\([^)]*\)` match)
with a single space. -/
def stripParens (s : Str) : Str := stripParensAux none s

-- ── The extractor loop (lines 269–426) ───────────────────────────────────────

/-- The per-line decision of the `extract_action_items` loop for `line` with
following-line context `next`: the candidate produced by the line, or `none`
when any filter rejects it.  The hard-skip cascade (lines 270–370) and the
name/trigger regexes (lines 163–175, 388–392, 398–405), which do not affect
the claims proved below, are abstract boolean parameters; everything from the
signal logic onward is concrete. -/
def lineCandidate (hardSkip hasName hasTrigger thirdPerson realDirective : Str → Bool)
    (today : Date) (line : Str) (next : Option Str) : Option Candidate :=
  if hardSkip line then none
  else
    let ctx := line ++ (match next with | some nl => ' ' :: nl | none => [])
    let has_name := hasName ctx
    let has_trigger := hasTrigger ctx
    if ¬(has_name ∨ has_trigger) then none
    else if has_name ∧ ¬has_trigger ∧ ¬hasName (stripParens ctx) then none
    else if has_name ∧ ¬has_trigger ∧ thirdPerson line then none
    else if has_trigger ∧ ¬has_name ∧ ¬realDirective line then none
    else if has_trigger ∧ ¬has_name ∧ wordCount line < 5 then none
    else
      let due := extract_due ctx today
      let priority := priorityOf ctx
      let text := cleanText line
      if text.length < 8 ∨ 300 < text.length then none
      else some ⟨text, due, priority⟩

/-- The loop over candidate lines with the per-call dedup set `seen`
(`seen_keys`, key = lowercased text truncated to 80 characters). -/
def extractLoop (hardSkip hasName hasTrigger thirdPerson realDirective : Str → Bool)
    (today : Date) : List Str → List Str → List Candidate
  | [], _ => []
  | line :: rest, seen =>
    match lineCandidate hardSkip hasName hasTrigger thirdPerson realDirective
        today line rest.head? with
    | none => extractLoop hardSkip hasName hasTrigger thirdPerson realDirective
        today rest seen
    | some item =>
      let key := (toLowerStr item.text).take 80
      if key ∈ seen then
        extractLoop hardSkip hasName hasTrigger thirdPerson realDirective
          today rest seen
      else
        item :: extractLoop hardSkip hasName hasTrigger thirdPerson realDirective
          today rest (key :: seen)

/-- `extract_action_items(source_type, content)` (lines 155–426); `source_type`
is accepted and never used, exactly as in the source. -/
def extract_action_items
    (hardSkip hasName hasTrigger thirdPerson realDirective : Str → Bool)
    (today : Date) (source_type content : Str) : List Candidate :=
  extractLoop hardSkip hasName hasTrigger thirdPerson realDirective today
    (extractLines content) []

end TodoApp

namespace TodoApp

/-- `ctx = line + (' ' + lines[i+1] if i+1 < len(lines) else '')` (line 377). -/
def mkCtx (line : Str) (next : Option Str) : Str :=
  line ++ (match next with | some nl => ' ' :: nl | none => [])

/-- A produced candidate records the cleaned line text (inside the length
gate), the priority of the context, and the due date extracted from the
context. -/
theorem lineCandidate_some (hardSkip hasName hasTrigger thirdPerson realDirective : Str → Bool)
    (today : Date) (line : Str) (next : Option Str) (item : Candidate)
    (h : lineCandidate hardSkip hasName hasTrigger thirdPerson realDirective
        today line next = some item) :
    item.text = cleanText line ∧ 8 ≤ item.text.length ∧ item.text.length ≤ 300 ∧
    item.priority = priorityOf (mkCtx line next) ∧
    item.due_date = extract_due (mkCtx line next) today := by
  simp only [lineCandidate] at h
  split_ifs at h with h1 h2 h3 h4 h5 h6 h7
  injection h with h8
  subst h8
  push_neg at h7
  exact ⟨rfl, h7.1, h7.2, rfl, rfl⟩

/-- Every item emitted by the loop comes from some line's `lineCandidate`. -/
theorem extractLoop_mem (hs hn ht tp rd : Str → Bool) (today : Date) :
    ∀ (lines seen : List Str) (item : Candidate),
      item ∈ extractLoop hs hn ht tp rd today lines seen →
      ∃ line next, lineCandidate hs hn ht tp rd today line next = some item := by
  intro lines
  induction lines with
  | nil =>
    intro seen item h
    simp only [extractLoop] at h
    cases h
  | cons line rest ih =>
    intro seen item h
    rcases hc : lineCandidate hs hn ht tp rd today line rest.head? with - | it
    · simp only [extractLoop, hc] at h
      exact ih seen item h
    · simp only [extractLoop, hc] at h
      by_cases hk : (toLowerStr it.text).take 80 ∈ seen
      · rw [if_pos hk] at h
        exact ih seen item h
      · rw [if_neg hk] at h
        rcases List.mem_cons.mp h with rfl | h2
        · exact ⟨line, rest.head?, hc⟩
        · exact ih _ item h2

theorem priorityOf_high_iff (s : Str) :
    priorityOf s = str "high" ↔
      (searchWordAlts urgencyAlts (toLowerStr s) true = true ∨
       searchWordAlts importanceAlts (toLowerStr s) true = true) := by
  have hne : str "medium" ≠ str "high" := by decide
  simp only [priorityOf]
  split_ifs with h1 h2
  · simp [h1]
  · simp [h2]
  · simp [h1, h2, hne]

theorem priorityOf_high_or_medium (s : Str) :
    priorityOf s = str "high" ∨ priorityOf s = str "medium" := by
  simp only [priorityOf]
  split_ifs with h1 h2
  · exact Or.inl rfl
  · exact Or.inl rfl
  · exact Or.inr rfl

end TodoApp

namespace TodoApp

set_option maxRecDepth 1000000 in
/-- C5: for every source kind and content (and any behaviour of the abstract
name/trigger/skip predicates), every item returned by extract_action_items
has 8 ≤ length(text) ≤ 300 for its cleaned text; concretely, cleaned texts of
boundary lengths 8 and 300 are kept while lengths 7 and 301 are dropped. -/
theorem extract_text_length_bounds :
    (∀ (hardSkip hasName hasTrigger thirdPerson realDirective : Str → Bool)
       (today : Date) (source_type content : Str) (item : Candidate),
      item ∈ extract_action_items hardSkip hasName hasTrigger thirdPerson realDirective
          today source_type content →
      8 ≤ item.text.length ∧ item.text.length ≤ 300) ∧
    extract_action_items (fun _ => false) (fun _ => true) (fun _ => false) (fun _ => false)
        (fun _ => false) ⟨2025, 1, 1⟩ (str "email") (List.replicate 8 'a')
      = [⟨'A' :: List.replicate 7 'a', none, str "medium"⟩] ∧
    extract_action_items (fun _ => false) (fun _ => true) (fun _ => false) (fun _ => false)
        (fun _ => false) ⟨2025, 1, 1⟩ (str "email") (List.replicate 300 'a')
      = [⟨'A' :: List.replicate 299 'a', none, str "medium"⟩] ∧
    extract_action_items (fun _ => false) (fun _ => true) (fun _ => false) (fun _ => false)
        (fun _ => false) ⟨2025, 1, 1⟩ (str "email") (List.replicate 7 'a') = [] ∧
    extract_action_items (fun _ => false) (fun _ => true) (fun _ => false) (fun _ => false)
        (fun _ => false) ⟨2025, 1, 1⟩ (str "email") (List.replicate 301 'a') = [] := by
  refine ⟨?_, ?_, ?_, ?_, ?_⟩
  · intro hs hn ht tp rd today source_type content item h
    obtain ⟨line, next, hc⟩ := extractLoop_mem hs hn ht tp rd today _ _ item h
    have hspec := lineCandidate_some hs hn ht tp rd today line next item hc
    exact ⟨hspec.2.1, hspec.2.2.1⟩
  · decide
  · decide
  · decide
  · decide

/-- Witness for C5 at the boundary length 8. -/
theorem extract_text_length_bounds_witness :
    8 ≤ ('A' :: List.replicate 7 'a').length ∧ ('A' :: List.replicate 7 'a').length ≤ 300 := by
  have h := extract_text_length_bounds.1 (fun _ => false) (fun _ => true) (fun _ => false)
    (fun _ => false) (fun _ => false) ⟨2025, 1, 1⟩ (str "email") (List.replicate 8 'a')
    ⟨'A' :: List.replicate 7 'a', none, str "medium"⟩ (by decide)
  exact h

/-- C8: every extracted item's priority equals _priority of its line-plus-
context, whose value is "high" exactly when the urgency vocabulary or the
importance / time-pressure vocabulary matches the lowercased sentence and
"medium" otherwise — never "low". -/
theorem extract_priority_classification :
    (∀ (hardSkip hasName hasTrigger thirdPerson realDirective : Str → Bool)
       (today : Date) (source_type content : Str) (item : Candidate),
      item ∈ extract_action_items hardSkip hasName hasTrigger thirdPerson realDirective
          today source_type content →
      (∃ line next, item.priority = priorityOf (mkCtx line next)) ∧
      (item.priority = str "high" ∨ item.priority = str "medium") ∧
      item.priority ≠ str "low") ∧
    (∀ s, priorityOf s = str "high" ↔
      (searchWordAlts urgencyAlts (toLowerStr s) true = true ∨
       searchWordAlts importanceAlts (toLowerStr s) true = true)) ∧
    (∀ s, priorityOf s ≠ str "low") ∧
    priorityOf (str "This is urgent please") = str "high" ∧
    priorityOf (str "finish the deck soon") = str "high" ∧
    priorityOf (str "Top  priority: budget") = str "high" ∧
    priorityOf (str "hello there world") = str "medium" ∧
    priorityOf (str "urgently needed") = str "medium" := by
  refine ⟨?_, priorityOf_high_iff, ?_, by decide, by decide, by decide, by decide, by decide⟩
  · intro hs hn ht tp rd today source_type content item h
    obtain ⟨line, next, hc⟩ := extractLoop_mem hs hn ht tp rd today _ _ item h
    have hspec := lineCandidate_some hs hn ht tp rd today line next item hc
    have hpr := hspec.2.2.2.1
    refine ⟨⟨line, next, hpr⟩, ?_, ?_⟩
    · rw [hpr]
      exact priorityOf_high_or_medium _
    · rw [hpr]
      rcases priorityOf_high_or_medium (mkCtx line next) with hh | hm
      · rw [hh]
        decide
      · rw [hm]
        decide
  · intro s
    rcases priorityOf_high_or_medium s with hh | hm
    · rw [hh]
      decide
    · rw [hm]
      decide

/-- Witness for C8 on a concrete extraction. -/
theorem extract_priority_classification_witness :
    (∃ line next,
        (⟨str "Send the report now please", none, str "medium"⟩ : Candidate).priority
          = priorityOf (mkCtx line next)) ∧
    ((⟨str "Send the report now please", none, str "medium"⟩ : Candidate).priority = str "high" ∨
     (⟨str "Send the report now please", none, str "medium"⟩ : Candidate).priority = str "medium") ∧
    (⟨str "Send the report now please", none, str "medium"⟩ : Candidate).priority ≠ str "low" := by
  have h := extract_priority_classification.1 (fun _ => false) (fun _ => true) (fun _ => false)
    (fun _ => false) (fun _ => false) ⟨2025, 1, 1⟩ (str "email")
    (str "send the report now please")
    ⟨str "Send the report now please", none, str "medium"⟩ (by decide)
  exact h

end TodoApp

namespace TodoApp

-- ── `_strip_email_quotes` (src/server.py lines 569–608) ──────────────────────

/-- Case-insensitive literal prefix match (pattern given lowercased); returns
the remainder on success. -/
def matchCI : Str → Str → Option Str
  | [], rest => some rest
  | _ :: _, [] => none
  | p :: ps, c :: cs => if c.toLower = p then matchCI ps cs else none

/-- `\s*$` in MULTILINE mode: some run of whitespace, then end of line (a
position before a newline or the end of the string). -/
def wsThenEol : Str → Bool
  | [] => true
  | c :: cs => if c = '\n' then true else if pyIsSpace c then wsThenEol cs else false

/-- `wrote:\s*$` at the current position. -/
def wroteTailAt (rest : Str) : Bool :=
  match matchCI (str "wrote:") rest with
  | some r => wsThenEol r
  | none => false

/-- `[^\n]{lo,hi}` then the continuation `k`: consume between `lo` and `hi`
non-newline characters, accepting if `k` holds at any admissible stop. -/
def scanNoNl (k : Str → Bool) : Nat → Nat → Str → Bool
  | 0, 0, s => k s
  | _ + 1, 0, _ => false
  | lo, hi + 1, s =>
    (if lo = 0 then k s else false) ||
    (match s with
     | c :: cs => if c = '\n' then false else scanNoNl k (lo - 1) hi cs
     | [] => false)

/-- `(?:\n[^\n]{0,100})?wrote:\s*$`: the optional wrapped attribution line,
then `wrote:` at end of line. -/
def attrTail (rest : Str) : Bool :=
  wroteTailAt rest ||
    (match rest with
     | '\n' :: rs => scanNoNl wroteTailAt 0 100 rs
     | _ => false)

/-- `\s+` then the continuation `k` (at least one whitespace character, with
backtracking over the amount consumed). -/
def wsPlusThen (k : Str → Bool) : Str → Bool
  | c :: cs => if pyIsSpace c then (k cs || wsPlusThen k cs) else false
  | [] => false

/-- After `On\s+`: `\w[^\n]{5,200}` then the attribution tail. -/
def afterOnWs (s : Str) : Bool :=
  match s with
  | c :: cs => isWordChar c && scanNoNl attrTail 5 200 cs
  | [] => false

/-- Does `On\s+\w[^\n]{5,200}(?:\n[^\n]{0,100})?wrote:\s*$` (IGNORECASE)
match at the start of `s`? -/
def attrMatchAt (s : Str) : Bool :=
  match matchCI (str "on") s with
  | none => false
  | some r1 => wsPlusThen afterOnWs r1

/-- Scan the remaining body, keeping characters until a line start (a position
right after a newline) where the attribution pattern matches. -/
def cutAttrAux : Str → Str
  | [] => []
  | c :: cs =>
    c :: (if c = '\n' then (if attrMatchAt cs then [] else cutAttrAux cs) else cutAttrAux cs)

/-- `body[:m.start()]` for the earliest MULTILINE match of the attribution
regex (`^` matches at the start of the body or after any newline); the whole
body when there is no match. -/
def cutAttr (body : Str) : Str :=
  if attrMatchAt body then [] else cutAttrAux body

/-- `body.split('\n')`. -/
def splitNl : Str → List Str
  | [] => [[]]
  | c :: cs =>
    if c = '\n' then [] :: splitNl cs
    else
      match splitNl cs with
      | l :: ls => (c :: l) :: ls
      | [] => [[c]]

/-- The quote-dropping loop (lines 591–601): drop lines whose stripped form
starts with `>`, and blank lines immediately following such a run. -/
def stripQuoteLines : Bool → List Str → List Str
  | _, [] => []
  | prevq, l :: ls =>
    if (pyStrip l).headD ' ' = '>' then stripQuoteLines true ls
    else if prevq ∧ pyStrip l = [] then stripQuoteLines prevq ls
    else l :: stripQuoteLines false ls

/-- ` \s*\n` after a separator run: within the following whitespace there is a
newline. -/
def hasNlInWs : Str → Bool
  | [] => false
  | c :: cs => if c = '\n' then true else if pyIsSpace c then hasNlInWs cs else false

/-- Does `\n[-_]{3,}\s*\n` match at the start of `s`? -/
def sigSepAt : Str → Bool
  | '\n' :: rest =>
    let run := rest.takeWhile fun c => c = '-' || c = '_'
    decide (3 ≤ run.length) && hasNlInWs (rest.drop run.length)
  | _ => false

/-- `body[:m.start()]` for the earliest signature-separator match, else the
whole body. -/
def cutSig : Str → Str
  | [] => []
  | c :: cs => if sigSepAt (c :: cs) then [] else c :: cutSig cs

/-- `_strip_email_quotes(body)` (lines 569–608): cut at the earliest
"On … wrote:" attribution line, drop quoted lines and the blanks after them,
cut at a signature separator, and strip. -/
def strip_email_quotes (body : Str) : Str :=
  let b1 := cutAttr body
  let b2 := List.intercalate (str "\n") (stripQuoteLines false (splitNl b1))
  let b3 := cutSig b2
  pyStrip b3

end TodoApp

namespace TodoApp

-- ── `_is_calendar_body` (src/server.py lines 611–628) ────────────────────────

/-- Scan left to right, attempting the matcher at every `\b` word-boundary
position (the boolean carries "the previous character is absent or
non-word"). -/
def searchB (f : Str → Bool) : Str → Bool → Bool
  | [], _ => false
  | c :: cs, atB => (atB && f (c :: cs)) || searchB f cs (!isWordChar c)

/-- Plain substring search (for the video-link host fragments, which carry no
word boundary). -/
def containsSub (pat : Str) : Str → Bool
  | [] => isPrefixB pat []
  | c :: cs => isPrefixB pat (c :: cs) || containsSub pat cs

/-- `Organizer\s*:` at the current position (the leading `\b` is handled by
the caller). -/
def calOrganizer (s : Str) : Bool :=
  isPrefixB (str "organizer") s &&
    (match (s.drop 9).dropWhile pyIsSpace with
     | ':' :: _ => true
     | _ => false)

/-- `When\s*:\s+\S` / `Where\s*:\s+\S` at the current position. -/
def calWhenColon (word : Str) (s : Str) : Bool :=
  isPrefixB word s &&
    (match (s.drop word.length).dropWhile pyIsSpace with
     | ':' :: c :: rest2 => pyIsSpace c && !((c :: rest2).dropWhile pyIsSpace).isEmpty
     | _ => false)

/-- `Dial-?in\b`: the remainder after the match. -/
def dialInRest (s : Str) : Option Str :=
  if isPrefixB (str "dialin") s then
    let r := s.drop 6
    if boundaryOkAfter r then some r else none
  else if isPrefixB (str "dial-in") s then
    let r := s.drop 7
    if boundaryOkAfter r then some r else none
  else none

/-- `\bDial-?in\b.*\bnumber\b` (an unflagged `.` does not cross a newline). -/
def calDialIn : Str → Bool → Bool
  | [], _ => false
  | c :: cs, atB =>
    (atB &&
      (match dialInRest (c :: cs) with
       | some rest =>
         searchWordAlts [[str "number"]] (rest.takeWhile fun d => !(d = '\n' : Bool)) false
       | none => false)) ||
    calDialIn cs (!isWordChar c)

/-- `Going\?\s+(?:Yes|No|Maybe)\b` at the current position. -/
def calGoing (s : Str) : Bool :=
  isPrefixB (str "going?") s &&
    (match s.drop 6 with
     | c :: cs =>
       pyIsSpace c && altsMatchAt [[str "yes"], [str "no"], [str "maybe"]]
         (cs.dropWhile pyIsSpace)
     | [] => false)

/-- The eleven `_CAL_PATTERNS`, in source order, as matchers over the
lowercased body. -/
def calPatternFns : List (Str → Bool) :=
  [fun b => searchB calOrganizer b true,
   fun b => searchB (calWhenColon (str "when")) b true,
   fun b => searchB (calWhenColon (str "where")) b true,
   fun b => searchWordAlts [[str "join", str "zoom"], [str "join", str "google", str "meet"],
     [str "join", str "the", str "meeting"], [str "join", str "teams"]] b true,
   fun b => containsSub (str "zoom.us/j/") b || containsSub (str "meet.google.com/") b ||
     containsSub (str "teams.microsoft.com") b,
   fun b => searchWordAlts [[str "video", str "call", str "link"]] b true,
   fun b => searchWordAlts [[str "proposed", str "new", str "time"]] b true,
   fun b => searchWordAlts [[str "conference", str "id"], [str "conference", str "room"],
     [str "conference", str "call"]] b true,
   fun b => calDialIn b true,
   fun b => searchWordAlts [[str "guests", str "can"]] b true,
   fun b => searchB calGoing b true]

/-- `hits = sum(1 for p in _CAL_PATTERNS if re.search(p, body, re.IGNORECASE))`. -/
def calHits (body : Str) : Nat :=
  calPatternFns.countP fun p => p (toLowerStr body)

/-- `_is_calendar_body(body)`: true iff at least two calendar signals hit. -/
def is_calendar_body (body : Str) : Bool := decide (2 ≤ calHits body)

end TodoApp

namespace TodoApp

/-- C7: on the body "New paragraph.\n\nOn Tue, Jan 2 at 3:00 PM A <a@x.com>
wrote:\n> old content", _strip_email_quotes cuts at the attribution line,
drops the quoted line, and returns exactly "New paragraph.". -/
theorem strip_email_quotes_example :
    strip_email_quotes
        (str "New paragraph.\n\nOn Tue, Jan 2 at 3:00 PM A <a@x.com> wrote:\n> old content")
      = str "New paragraph." := by decide

/-- C9: _is_calendar_body holds iff at least 2 of the 11 calendar-phrase
signals match; a body with two of {Organizer:, When: Tuesday, Join Zoom,
Going? Yes} is calendar noise, one with exactly one of them (and no other
signal) is not. -/
theorem is_calendar_body_spec :
    (∀ body, is_calendar_body body = true ↔ 2 ≤ calHits body) ∧
    is_calendar_body (str "Organizer: Bob\nWhen: Tuesday 3 PM") = true ∧
    is_calendar_body (str "Join Zoom\nGoing? Yes") = true ∧
    is_calendar_body (str "Organizer: Bob will attend") = false ∧
    is_calendar_body (str "You can Join Zoom from home") = false ∧
    is_calendar_body (str "When: Tuesday the launch happens") = false ∧
    is_calendar_body (str "Going? Yes I think so") = false := by
  refine ⟨fun body => ?_, by decide, by decide, by decide, by decide, by decide, by decide⟩
  simp [is_calendar_body]

end TodoApp
